import Mathlib

/-!
Verification development for the NoReal_bot conversation orchestrator.

The TypeScript sources (src/ai.ts, src/db.ts, src/index.ts, src/tools.ts) are
shallowly embedded below.  JavaScript strings are modelled as lists of Unicode
code points (`Str`); JavaScript numbers that the code manipulates exactly
(counters, thresholds, deltas) are modelled as rationals; machine-level float
rounding is never relied upon by any statement proved here.  `JSON.stringify` /
`JSON.parse` are modelled by an executable serializer and a fuel-based parser
over a JSON value type.  Effects (the TypeORM store, the photo side channel on
the message array, timer handles) are threaded explicitly as state.  The LLM
provider and the three tool backends are external collaborators and enter as
function parameters (`Env`), as the spec treats them (interfaces only).
`Math.random`-generated correlation ids are modelled by a deterministic
counter-based supply: no statement below depends on id values.
-/

set_option maxRecDepth 8000

/-- JavaScript strings, modelled as lists of code points.  JS `.length` counts
UTF-16 units; the two agree on all BMP characters, and no statement below uses
astral-plane characters. -/
abbrev Str := List Char

/-- The `\x7b` brace character, kept out of character literals. -/
def obrace : Char := Char.ofNat 123

/-- The `\x7d` brace character. -/
def cbrace : Char := Char.ofNat 125

/-- The apostrophe character. -/
def squote : Char := Char.ofNat 39

/-- One hexadecimal digit, lower case, as produced by JSON.stringify `\u00XX`
escapes. -/
def hexDigit (n : Nat) : Char :=
  if n < 10 then Char.ofNat (48 + n) else Char.ofNat (87 + n)

/-- JSON.stringify escaping of a single character. -/
def escChar (c : Char) : Str :=
  if c = '"' then ['\\', '"']
  else if c = '\\' then ['\\', '\\']
  else if c = '\n' then ['\\', 'n']
  else if c = '\r' then ['\\', 'r']
  else if c = '\t' then ['\\', 't']
  else if c.toNat = 8 then ['\\', 'b']
  else if c.toNat = 12 then ['\\', 'f']
  else if c.toNat < 32 then ['\\', 'u', '0', '0', hexDigit (c.toNat / 16), hexDigit (c.toNat % 16)]
  else [c]

/-- JSON.stringify escaping of a string body. -/
def jsonEscape : Str → Str
  | [] => []
  | c :: cs => escChar c ++ jsonEscape cs

/-- A JSON string literal: quote, escaped body, quote. -/
def jstrLit (s : Str) : Str := '"' :: jsonEscape s ++ ['"']

/-- JS `String.prototype.trim` whitespace test (ASCII part; the inputs below
are ASCII/Cyrillic text without exotic spaces). -/
def isWhiteSp (c : Char) : Bool :=
  c = ' ' || c = '\t' || c = '\n' || c = '\r' || c.toNat = 11 || c.toNat = 12

/-- JS `String.prototype.trim`. -/
def trimStr (s : Str) : Str :=
  ((s.dropWhile isWhiteSp).reverse.dropWhile isWhiteSp).reverse

/-- JS default string comparison (code-unit order; code-point order coincides
on the BMP).  Used by `Array.prototype.sort`'s default comparator. -/
def strLt : Str → Str → Bool
  | [], [] => false
  | [], _ :: _ => true
  | _ :: _, [] => false
  | a :: as, b :: bs => if a = b then strLt as bs else decide (a.toNat < b.toNat)

/-- `[x, y].sort()` for two strings: ascending pair. -/
def sortPairStr (x y : Str) : Str × Str := if strLt y x then (y, x) else (x, y)

/-- `Number.prototype.toString` for the integers handled here. -/
def intToStr (i : Int) : Str := (toString i).data

/-- Is `pat` a prefix of `s`?  (Plain sequence matching for the scanners.) -/
def seqAt : Str → Str → Bool
  | [], _ => true
  | _ :: _, [] => false
  | p :: ps, c :: cs => p = c && seqAt ps cs

/-- Earliest occurrence of the sequence `pat` in `s`: returns the text before
the occurrence and the text after it.  Implements the lazy `.*?pat` search the
tool-call regexes perform. -/
def splitUntilSeq (pat : Str) : Str → Option (Str × Str)
  | [] => if pat.isEmpty then some ([], []) else none
  | c :: rest =>
    if seqAt pat (c :: rest) then some ([], (c :: rest).drop pat.length)
    else
      match splitUntilSeq pat rest with
      | some (pre, post) => some (c :: pre, post)
      | none => none

/-- JS `\w` word characters. -/
def isWordChar (c : Char) : Bool :=
  ('a' ≤ c && c ≤ 'z') || ('A' ≤ c && c ≤ 'Z') || ('0' ≤ c && c ≤ '9') || c = '_'

/-- Greedy run of word characters at the head of the string. -/
def spanWord (s : Str) : Str × Str := (s.takeWhile isWordChar, s.dropWhile isWordChar)

/-- JSON values.  Numbers are rationals: every decimal literal the code feeds
through `JSON.parse` is represented exactly. -/
inductive JValue where
  | jnull
  | jbool (b : Bool)
  | jnum (q : Rat)
  | jstr (s : Str)
  | jarr (elems : List JValue)
  | jobj (fields : List (Str × JValue))

/-- Decimal rendering of the rationals appearing in serialized output.  JS
prints numbers in decimal; integers agree exactly, and no statement below
inspects a serialized non-integer. -/
def numToStr (q : Rat) : Str :=
  if q.den = 1 then (toString q.num).data
  else (toString q.num).data ++ '/' :: (toString q.den).data

mutual
/-- `JSON.stringify` on a JSON value (no spacing, insertion key order). -/
def stringifyJ : JValue → Str
  | .jnull => ['n', 'u', 'l', 'l']
  | .jbool true => ['t', 'r', 'u', 'e']
  | .jbool false => ['f', 'a', 'l', 's', 'e']
  | .jnum q => numToStr q
  | .jstr s => jstrLit s
  | .jarr es => '[' :: stringifyJList es ++ [']']
  | .jobj fs => obrace :: stringifyJFields fs ++ [cbrace]
def stringifyJList : List JValue → Str
  | [] => []
  | [v] => stringifyJ v
  | v :: vs => stringifyJ v ++ ',' :: stringifyJList vs
def stringifyJFields : List (Str × JValue) → Str
  | [] => []
  | [(k, v)] => jstrLit k ++ ':' :: stringifyJ v
  | (k, v) :: fs => (jstrLit k ++ ':' :: stringifyJ v) ++ ',' :: stringifyJFields fs
end

/-- Field lookup on a JSON value: JS property access `v.k` (undefined when the
value is not an object or lacks the key). -/
def objGet (v : JValue) (k : Str) : Option JValue :=
  match v with
  | .jobj fs =>
    match fs.find? (fun f => f.1 = k) with
    | some f => some f.2
    | none => none
  | _ => none

/-- JS truthiness of a possibly-undefined value (`undefined`, `null`, `false`,
`0`, `""` are falsy). -/
def truthyV : Option JValue → Bool
  | none => false
  | some .jnull => false
  | some (.jbool b) => b
  | some (.jnum q) => q ≠ 0
  | some (.jstr s) => !s.isEmpty
  | some (.jarr _) => true
  | some (.jobj _) => true

/-- JS `a || b` on possibly-undefined values. -/
def jsOrV (a b : Option JValue) : Option JValue := if truthyV a then a else b

/-- JS `String(v)` for the values reaching template literals here.  Arrays and
objects are abbreviated; no proved statement inspects those cases. -/
def jsToStr : JValue → Str
  | .jnull => ['n', 'u', 'l', 'l']
  | .jbool true => ['t', 'r', 'u', 'e']
  | .jbool false => ['f', 'a', 'l', 's', 'e']
  | .jnum q => numToStr q
  | .jstr s => s
  | .jarr _ => []
  | .jobj _ => ['[', 'o', 'b', 'j', 'e', 'c', 't', ']']

/-- JS display of a possibly-undefined value inside a template literal. -/
def jsDisp : Option JValue → Str
  | none => ['u', 'n', 'd', 'e', 'f', 'i', 'n', 'e', 'd']
  | some v => jsToStr v

/-- Leading decimal digits to a natural number, with the count of digits. -/
def digitsToNat : Str → Nat → Nat × Nat × Str
  | [], acc => (acc, 0, [])
  | c :: cs, acc =>
    if '0' ≤ c && c ≤ '9' then
      let r := digitsToNat cs (acc * 10 + (c.toNat - 48))
      (r.1, r.2.1 + 1, r.2.2)
    else (acc, 0, c :: cs)

/-- JS `parseInt` on a string: optional sign, leading digits, NaN (`none`) when
no digit is found. -/
def parseIntStr (s : Str) : Option Int :=
  let s := s.dropWhile isWhiteSp
  match s with
  | '-' :: rest =>
    let (n, cnt, _) := digitsToNat rest 0
    if cnt = 0 then none else some (-(n : Int))
  | '+' :: rest =>
    let (n, cnt, _) := digitsToNat rest 0
    if cnt = 0 then none else some (n : Int)
  | rest =>
    let (n, cnt, _) := digitsToNat rest 0
    if cnt = 0 then none else some (n : Int)

/-- JS `parseInt(v)` on a possibly-undefined value (the argument is first
converted by `String(v)`). -/
def parseIntJS (v : Option JValue) : Option Int :=
  match v with
  | none => none
  | some w => parseIntStr (jsToStr w)

/-- Numeric string to rational: digits with an optional fractional part. -/
def parseNumStr (s : Str) : Option Rat :=
  let (neg, s1) := match s with
    | '-' :: rest => (true, rest)
    | rest => (false, rest)
  let (ip, c1, s2) := digitsToNat s1 0
  if c1 = 0 then none
  else
    let (q, s3) : Rat × Str := match s2 with
      | '.' :: rest =>
        let (fp, c2, s4) := digitsToNat rest 0
        ((ip : Rat) + (fp : Rat) / ((10 : Rat) ^ c2), s4)
      | rest => ((ip : Rat), rest)
    if s3.isEmpty then some (if neg then -q else q) else none

/-- JS `ToNumber` coercion of a possibly-undefined value (`none` plays NaN).
String coercion accepts trimmed decimal numerals; `""` is 0. -/
def toNumberJS : Option JValue → Option Rat
  | none => none
  | some .jnull => some 0
  | some (.jbool true) => some 1
  | some (.jbool false) => some 0
  | some (.jnum q) => some q
  | some (.jstr s) =>
    let t := trimStr s
    if t.isEmpty then some 0 else parseNumStr t
  | some (.jarr _) => none
  | some (.jobj _) => none

/-- JS `Math.round` (half away from zero towards positive infinity). -/
def jsRound (q : Rat) : Int := ⌊q + 1/2⌋

/-- Skip JSON whitespace. -/
def skipWs (s : Str) : Str :=
  s.dropWhile (fun c => c = ' ' || c = '\t' || c = '\n' || c = '\r')

/-- Parse a JSON string body after the opening quote; returns the body and the
remainder after the closing quote. -/
def parseStrBody : Nat → Str → Option (Str × Str)
  | 0, _ => none
  | _, [] => none
  | fuel + 1, c :: rest =>
    if c = '"' then some ([], rest)
    else if c = '\\' then
      match rest with
      | [] => none
      | e :: rest2 =>
        let dec : Option Char :=
          if e = '"' then some '"'
          else if e = '\\' then some '\\'
          else if e = '/' then some '/'
          else if e = 'n' then some '\n'
          else if e = 'r' then some '\r'
          else if e = 't' then some '\t'
          else if e = 'b' then some (Char.ofNat 8)
          else if e = 'f' then some (Char.ofNat 12)
          else none
        match dec with
        | some d =>
          match parseStrBody fuel rest2 with
          | some (body, rem) => some (d :: body, rem)
          | none => none
        | none => none
    else
      match parseStrBody fuel rest with
      | some (body, rem) => some (c :: body, rem)
      | none => none

mutual
/-- Fuel-based JSON parser: one value, returning the remainder. -/
def parseVal : Nat → Str → Option (JValue × Str)
  | 0, _ => none
  | fuel + 1, s =>
    match skipWs s with
    | [] => none
    | c :: rest =>
      if c = '"' then
        match parseStrBody (fuel + 1) rest with
        | some (body, rem) => some (.jstr body, rem)
        | none => none
      else if c = obrace then
        match skipWs rest with
        | d :: rest2 =>
          if d = cbrace then some (.jobj [], rest2)
          else parseObjFields fuel (d :: rest2) []
        | [] => none
      else if c = '[' then
        match skipWs rest with
        | d :: rest2 =>
          if d = ']' then some (.jarr [], rest2)
          else parseArrElems fuel (d :: rest2) []
        | [] => none
      else if seqAt ['t', 'r', 'u', 'e'] (c :: rest) then
        some (.jbool true, (c :: rest).drop 4)
      else if seqAt ['f', 'a', 'l', 's', 'e'] (c :: rest) then
        some (.jbool false, (c :: rest).drop 5)
      else if seqAt ['n', 'u', 'l', 'l'] (c :: rest) then
        some (.jnull, (c :: rest).drop 4)
      else
        let (neg, s1) := if c = '-' then (true, rest) else (false, c :: rest)
        let (ip, cnt, s2) := digitsToNat s1 0
        if cnt = 0 then none
        else
          match s2 with
          | '.' :: s3 =>
            let (fp, c2, s4) := digitsToNat s3 0
            if c2 = 0 then none
            else
              let q : Rat := (ip : Rat) + (fp : Rat) / ((10 : Rat) ^ c2)
              some (.jnum (if neg then -q else q), s4)
          | s3 => some (.jnum (if neg then -(ip : Rat) else (ip : Rat)), s3)

/-- Object members after the opening brace (non-empty object). -/
def parseObjFields : Nat → Str → List (Str × JValue) → Option (JValue × Str)
  | 0, _, _ => none
  | fuel + 1, s, acc =>
    match skipWs s with
    | '"' :: rest =>
      match parseStrBody (fuel + 1) rest with
      | some (key, rem) =>
        match skipWs rem with
        | ':' :: rem2 =>
          match parseVal fuel rem2 with
          | some (v, rem3) =>
            match skipWs rem3 with
            | ',' :: rem4 => parseObjFields fuel rem4 (acc ++ [(key, v)])
            | d :: rem4 =>
              if d = cbrace then some (.jobj (acc ++ [(key, v)]), rem4) else none
            | [] => none
          | none => none
        | _ => none
      | none => none
    | _ => none

/-- Array elements after the opening bracket (non-empty array). -/
def parseArrElems : Nat → Str → List JValue → Option (JValue × Str)
  | 0, _, _ => none
  | fuel + 1, s, acc =>
    match parseVal fuel s with
    | some (v, rem) =>
      match skipWs rem with
      | ',' :: rem2 => parseArrElems fuel rem2 (acc ++ [v])
      | ']' :: rem2 => some (.jarr (acc ++ [v]), rem2)
      | _ => none
    | none => none
end

/-- `JSON.parse`: whole-string parse, `none` models the thrown SyntaxError. -/
def parseJson (s : Str) : Option JValue :=
  match parseVal (4 * s.length + 16) s with
  | some (v, rem) => if (skipWs rem).isEmpty then some v else none
  | none => none

/-- One entry of a tool call's `function` field.  `name` is `none` when a
malformed Format-2 entry supplied no string name (JS `undefined`);
`arguments` is `none` when `JSON.stringify` of a missing `arguments` field
produced `undefined`. -/
structure ToolFn where
  name : Option Str
  arguments : Option Str
deriving DecidableEq

/-- A tool invocation as carried on assistant messages (OpenAI wire shape). -/
structure ToolCall where
  id : Str
  type : Str
  function : ToolFn
deriving DecidableEq

/-- A conversation message.  `content = none` renders as JSON `null` (the
assistant tool-call push uses `content || null`); `name`, `tool_call_id` and
`tool_calls` are omitted from serialization when absent (JS `undefined`). -/
structure Msg where
  role : Str
  content : Option Str
  name : Option Str
  tool_call_id : Option Str
  tool_calls : Option (List ToolCall)
deriving DecidableEq

/-- A user message as the handlers build them. -/
def userMsg (role content : Str) : Msg :=
  { role := role, content := some content, name := none, tool_call_id := none, tool_calls := none }

/-- `"key":value` serialized field. -/
def mkField (k : Str) (v : Str) : Str := jstrLit k ++ ':' :: v

/-- Comma-join of serialized pieces. -/
def joinComma : List Str → Str
  | [] => []
  | [s] => s
  | s :: rest => s ++ ',' :: joinComma rest

/-- `JSON.stringify` of one tool call. -/
def stringifyToolCall (tc : ToolCall) : Str :=
  let fnFields :=
    (match tc.function.name with
     | some n => [mkField ("name".data) (jstrLit n)]
     | none => []) ++
    (match tc.function.arguments with
     | some a => [mkField ("arguments".data) (jstrLit a)]
     | none => [])
  obrace :: joinComma
    [mkField ("id".data) (jstrLit tc.id),
     mkField ("type".data) (jstrLit tc.type),
     mkField ("function".data) (obrace :: joinComma fnFields ++ [cbrace])] ++ [cbrace]

/-- `JSON.stringify` of a tool-call array. -/
def stringifyToolCalls (tcs : List ToolCall) : Str :=
  '[' :: joinComma (tcs.map stringifyToolCall) ++ [']']

/-- `JSON.stringify` of one message.  Key order is fixed; JS key order varies
by construction site but every statement below depends only on lengths and on
structural message equality, which key order does not affect. -/
def stringifyMsg (m : Msg) : Str :=
  let fs :=
    [mkField ("role".data) (jstrLit m.role),
     mkField ("content".data)
       (match m.content with
        | some c => jstrLit c
        | none => "null".data)] ++
    (match m.name with
     | some n => [mkField ("name".data) (jstrLit n)]
     | none => []) ++
    (match m.tool_call_id with
     | some i => [mkField ("tool_call_id".data) (jstrLit i)]
     | none => []) ++
    (match m.tool_calls with
     | some tcs => [mkField ("tool_calls".data) (stringifyToolCalls tcs)]
     | none => [])
  obrace :: joinComma fs ++ [cbrace]

/-- `JSON.stringify` of a message array (the size measure the orchestrator
uses for its 15000/40000/60000-char decisions). -/
def stringifyList (msgs : List Msg) : Str :=
  '[' :: joinComma (msgs.map stringifyMsg) ++ [']']

/-- The photo the `getfunnyimage` branch smuggles through the shared mutable
`__photoToSend` field on the message array. -/
structure Photo where
  url : Str
  caption : Option Str
deriving DecidableEq

/-- The conversation buffer: the `messages` array plus its `__photoToSend`
expando.  Sites that build a fresh array (summarization slice, truncation)
lose the expando, which the model mirrors. -/
structure Buf where
  msgs : List Msg
  photoToSend : Option Photo
deriving DecidableEq

/-- Row of the `users` table (db.ts `User`). -/
structure UserRow where
  id : Str
  username : Option Str
  first_name : Option Str
  reputation : Rat
deriving DecidableEq

/-- Row of the `facts` table (db.ts `Fact`). -/
structure FactRow where
  user_id : Str
  fact : Str
deriving DecidableEq

/-- Row of the `history` table (db.ts `History`). -/
structure HistoryRow where
  chat_id : Str
  user_id : Option Str
  role : Str
  name : Option Str
  content : Str
deriving DecidableEq

/-- Row of the `relationships` table (db.ts `Relationship`). -/
structure RelRow where
  chat_id : Str
  user_id_1 : Str
  user_id_2 : Str
  affection : Rat
  status : Option Str
deriving DecidableEq

/-- Row of the `chat_settings` table (db.ts `ChatSettings`). -/
structure SettingsRow where
  chat_id : Str
  temperature : Rat
  mood : Str
  reply_chance : Int
  message_counter : Rat
deriving DecidableEq

/-- Row of the `reminders` table (db.ts `Reminder`); `due_at` in epoch ms. -/
structure ReminderRow where
  id : Nat
  chat_id : Str
  user_id : Str
  text : Str
  due_at : Int
  is_sent : Bool
deriving DecidableEq

/-- The persistent store (the TypeORM tables the embedded functions touch),
with the auto-increment counter for reminder primary keys. -/
structure Store where
  users : List UserRow
  facts : List FactRow
  history : List HistoryRow
  relationships : List RelRow
  chat_settings : List SettingsRow
  chat_summaries : List (Str × Str)
  reminders : List ReminderRow
  nextReminderId : Nat
deriving DecidableEq

/-- The empty store. -/
def emptyStore : Store :=
  { users := [], facts := [], history := [], relationships := [], chat_settings := [],
    chat_summaries := [], reminders := [], nextReminderId := 0 }

/-- Replace the first list element satisfying `p` by `x` (TypeORM `save` of a
row found by the same predicate). -/
def replaceFirst (p : α → Bool) (x : α) : List α → List α
  | [] => []
  | y :: ys => if p y then x :: ys else y :: replaceFirst p x ys

/-- db.ts `addFact`: skip when an identical fact row exists, else insert. -/
def addFact (st : Store) (userId : Int) (fact : Str) : Store :=
  let us := intToStr userId
  match st.facts.find? (fun f => f.user_id = us && f.fact = fact) with
  | some _ => st
  | none => { st with facts := st.facts ++ [{ user_id := us, fact := fact }] }

/-- db.ts `deleteFact`: delete all rows matching user and exact text. -/
def deleteFact (st : Store) (userId : Int) (factText : Str) : Store :=
  let us := intToStr userId
  { st with facts := st.facts.filter (fun f => !(f.user_id = us && f.fact = factText)) }

/-- db.ts `changeReputation`: `repo.increment` on the matching user row. -/
def changeReputation (st : Store) (userId : Int) (amount : Rat) : Store :=
  let us := intToStr userId
  { st with users := st.users.map (fun u => if u.id = us then { u with reputation := u.reputation + amount } else u) }

/-- db.ts `updateRelationship`: canonicalize the user pair by sorting the two
ids as strings, find-or-create the row, add the affection delta, and set the
status when truthy. -/
def updateRelationship (st : Store) (chatId : Int) (userId1 userId2 : Int)
    (affectionDelta : Rat) (status : Option Str) : Store :=
  let p := sortPairStr (intToStr userId1) (intToStr userId2)
  let id1 := p.1
  let id2 := p.2
  let cs := intToStr chatId
  let pred : RelRow → Bool := fun r => r.chat_id = cs && r.user_id_1 = id1 && r.user_id_2 = id2
  match st.relationships.find? pred with
  | some rel =>
    let rel' := { rel with
      affection := rel.affection + affectionDelta,
      status := match status with
        | some s => if s.isEmpty then rel.status else some s
        | none => rel.status }
    { st with relationships := replaceFirst pred rel' st.relationships }
  | none =>
    let rel : RelRow := { chat_id := cs, user_id_1 := id1, user_id_2 := id2, affection := 0, status := none }
    let rel' := { rel with
      affection := rel.affection + affectionDelta,
      status := match status with
        | some s => if s.isEmpty then rel.status else some s
        | none => rel.status }
    { st with relationships := st.relationships ++ [rel'] }

/-- db.ts `getRelationships`. -/
def getRelationships (st : Store) (chatId : Int) : List RelRow :=
  st.relationships.filter (fun r => r.chat_id = intToStr chatId)

/-- db.ts `getAllUsersInChat`: users whose id appears among the distinct
non-null `user_id`s of the chat's history rows. -/
def getAllUsersInChat (st : Store) (chatId : Int) : List UserRow :=
  let cs := intToStr chatId
  st.users.filter (fun u =>
    st.history.any (fun h => h.chat_id = cs && h.user_id = some u.id))

/-- db.ts `updateChatSummary`: upsert by chat id. -/
def updateChatSummary (st : Store) (chatId : Int) (content : Str) : Store :=
  let cs := intToStr chatId
  if st.chat_summaries.any (fun s => s.1 = cs) then
    { st with chat_summaries := replaceFirst (fun s => s.1 = cs) (cs, content) st.chat_summaries }
  else
    { st with chat_summaries := st.chat_summaries ++ [(cs, content)] }

/-- The settings row db.ts `shouldReplyPassive` works on: the stored row, or
the one `repo.create` builds (column defaults: temperature 0.7, mood neutral,
reply_chance 10, message_counter 0). -/
def settingsRowFor (st : Store) (chatId : Int) : SettingsRow :=
  match st.chat_settings.find? (fun r => r.chat_id = intToStr chatId) with
  | some s => s
  | none =>
    { chat_id := intToStr chatId, temperature := 7/10, mood := "neutral".data,
      reply_chance := 10, message_counter := 0 }

/-- Persist a settings row (upsert by chat id, as `repo.save` does). -/
def saveSettings (st : Store) (row : SettingsRow) : Store :=
  if st.chat_settings.any (fun r => r.chat_id = row.chat_id) then
    { st with chat_settings := replaceFirst (fun r => r.chat_id = row.chat_id) row st.chat_settings }
  else
    { st with chat_settings := st.chat_settings ++ [row] }

/-- db.ts `shouldReplyPassive`: add the increment to the chat's message
counter, fire when the counter reaches `100 / (reply_chance || 1)`, and on
firing keep the overflow (clamped at zero). -/
def shouldReplyPassive (st : Store) (chatId : Int) (increment : Nat) : Bool × Store :=
  let settings := settingsRowFor st chatId
  let s1 := { settings with message_counter := settings.message_counter + increment }
  let threshold : Rat := 100 / (((if s1.reply_chance = 0 then 1 else s1.reply_chance) : Int) : Rat)
  if s1.message_counter ≥ threshold then
    let s2 := { s1 with message_counter := max 0 (s1.message_counter - threshold) }
    (true, saveSettings st s2)
  else
    (false, saveSettings st s1)

/-- db.ts `addReminder`: skip when any unsent reminder exists for the same
(chat, user) pair, else insert a fresh unsent row. -/
def addReminder (st : Store) (chatId userId : Int) (text : Str) (dueAt : Int) : Store :=
  let cs := intToStr chatId
  let us := intToStr userId
  match st.reminders.find? (fun r => r.chat_id = cs && r.user_id = us && r.is_sent = false) with
  | some _ => st
  | none =>
    { st with
      reminders := st.reminders ++
        [{ id := st.nextReminderId, chat_id := cs, user_id := us, text := text,
           due_at := dueAt, is_sent := false }],
      nextReminderId := st.nextReminderId + 1 }

/-- db.ts `getPendingReminders`: all rows with `is_sent = false` and
`due_at ≤ now` (a pure read; nothing is deleted). -/
def getPendingReminders (now : Int) (st : Store) : List ReminderRow :=
  st.reminders.filter (fun r => r.is_sent = false && r.due_at ≤ now)

/-- db.ts `markReminderSent`: set the sent flag on the row with this id. -/
def markReminderSent (id : Nat) (st : Store) : Store :=
  { st with reminders := st.reminders.map (fun r => if r.id = id then { r with is_sent := true } else r) }

/-- index.ts `processingChats`: a JS `Set<number>` of chat ids, modelled as a
duplicate-free list (the guarded `add` below never introduces duplicates). -/
def isProcessing (chatId : Int) (processingChats : List Int) : Bool :=
  chatId ∈ processingChats

/-- index.ts `lockChat`: non-blocking try-acquire — fail fast when the id is
already present, else add it. -/
def lockChat (chatId : Int) (processingChats : List Int) : Bool × List Int :=
  if chatId ∈ processingChats then (false, processingChats)
  else (true, chatId :: processingChats)

/-- index.ts `unlockChat`: `Set.delete`. -/
def unlockChat (chatId : Int) (processingChats : List Int) : List Int :=
  processingChats.filter (fun c => c ≠ chatId)

/-- The idle-timer subsystem of index.ts: the `chatTimers` map from chat id to
the latest `setTimeout` handle, plus the set of handles that are scheduled and
have neither fired nor been cleared, tagged with their chat. -/
structure TimerSys where
  chatTimers : List (Int × Nat)
  pending : List (Nat × Int)
  nextHandle : Nat
deriving DecidableEq

/-- The empty timer state. -/
def emptyTimers : TimerSys := { chatTimers := [], pending := [], nextHandle := 0 }

/-- Map lookup in `chatTimers`. -/
def timerFor (chatId : Int) (s : TimerSys) : Option Nat :=
  match s.chatTimers.find? (fun e => e.1 = chatId) with
  | some e => some e.2
  | none => none

/-- index.ts `resetIdleTimer`: clear the chat's existing timeout if any, then
schedule exactly one new timeout and record its handle in `chatTimers`. -/
def resetIdleTimer (chatId : Int) (s : TimerSys) : TimerSys :=
  let s1 :=
    match timerFor chatId s with
    | some h => { s with pending := s.pending.filter (fun e => e.1 ≠ h) }
    | none => s
  let h := s1.nextHandle
  { chatTimers :=
      (if s1.chatTimers.any (fun e => e.1 = chatId) then
        replaceFirst (fun e => e.1 = chatId) (chatId, h) s1.chatTimers
      else s1.chatTimers ++ [(chatId, h)]),
    pending := s1.pending ++ [(h, chatId)],
    nextHandle := s1.nextHandle + 1 }

/-- The chat's idle timeout fires and its callback runs to completion.  The
callback body (index.ts lines 394–428) performs no timer operation — in
particular it does not call `resetIdleTimer` — so the only state change is
that the fired handle stops being pending. -/
def idleTimerFire (chatId : Int) (s : TimerSys) : TimerSys :=
  match timerFor chatId s with
  | some h => { s with pending := s.pending.filter (fun e => e.1 ≠ h) }
  | none => s

/-- Number of live (scheduled, unfired, uncleared) idle timers for a chat. -/
def liveTimers (chatId : Int) (s : TimerSys) : Nat :=
  (s.pending.filter (fun e => e.2 = chatId)).length

/-- Match of `toolRegex1` (`<function\((\w+)\)>(.*?)<\/function>` or
`<function\((\w+)\)({.*?})<\/function>`, dot-all, lazy) at the head of the
string: the captured name, the captured args text (`none` when the first
alternative captured an empty group, which makes `match[2] || match[4]`
undefined in JS), and the remainder after the match. -/
def matchF1At (s : Str) : Option (Str × Option Str × Str) :=
  if seqAt ("<function(".data) s then
    let (w, afterW) := spanWord (s.drop 10)
    if w.isEmpty then none
    else
      match afterW with
      | ')' :: '>' :: tail =>
        match splitUntilSeq ("</function>".data) tail with
        | some (argsText, rem) =>
          some (w, (if argsText.isEmpty then none else some argsText), rem)
        | none => none
      | ')' :: b :: tail =>
        if b = obrace then
          match splitUntilSeq (cbrace :: ("</function>".data)) tail with
          | some (mid, rem) => some (w, some (obrace :: (mid ++ [cbrace])), rem)
          | none => none
        else none
      | _ => none
  else none

/-- Global scan of `toolRegex1` occurrences (lastIndex advances past each
match, else by one character). -/
def scanF1 : Nat → Str → List (Str × Option Str)
  | 0, _ => []
  | _, [] => []
  | fuel + 1, s@(_ :: rest) =>
    match matchF1At s with
    | some (name, args, rem) => (name, args) :: scanF1 fuel rem
    | none => scanF1 fuel rest

/-- Global scan of `toolRegex2` (`<tools>(.*?)<\/tools>`, dot-all, lazy):
captured inner texts. -/
def scanF2 : Nat → Str → List Str
  | 0, _ => []
  | _, [] => []
  | fuel + 1, s@(_ :: rest) =>
    if seqAt ("<tools>".data) s then
      match splitUntilSeq ("</tools>".data) (s.drop 7) with
      | some (inner, rem) => inner :: scanF2 fuel rem
      | none => scanF2 fuel rest
    else scanF2 fuel rest

/-- Match of `toolRegex3` (`(\w+)\(([^)]+)\)`) at the head of the string. -/
def matchF3At (s : Str) : Option (Str × Str × Str) :=
  let (w, afterW) := spanWord s
  if w.isEmpty then none
  else
    match afterW with
    | '(' :: tail =>
      let args := tail.takeWhile (fun c => c ≠ ')')
      if args.isEmpty then none
      else
        match tail.drop args.length with
        | ')' :: rem => some (w, args, rem)
        | _ => none
    | _ => none

/-- Global scan of `toolRegex3` occurrences (every occurrence is consumed,
known tool or not, exactly as the JS loop advances lastIndex). -/
def scanF3 : Nat → Str → List (Str × Str)
  | 0, _ => []
  | _, [] => []
  | fuel + 1, s@(_ :: rest) =>
    match matchF3At s with
    | some (name, args, rem) => (name, args) :: scanF3 fuel rem
    | none => scanF3 fuel rest

/-- Match of the argument regex `(\w+)=["']([^"']+)["']` at the head. -/
def matchArgAt (s : Str) : Option ((Str × Str) × Str) :=
  let (k, afterK) := spanWord s
  if k.isEmpty then none
  else
    match afterK with
    | '=' :: q :: tail =>
      if q = '"' || q = squote then
        let v := tail.takeWhile (fun c => c ≠ '"' && c ≠ squote)
        if v.isEmpty then none
        else
          match tail.drop v.length with
          | q2 :: rem => if q2 = '"' || q2 = squote then some ((k, v), rem) else none
          | [] => none
      else none
    | _ => none

/-- Global scan of argument pairs inside a Format-3 call. -/
def scanArgs : Nat → Str → List (Str × Str)
  | 0, _ => []
  | _, [] => []
  | fuel + 1, s@(_ :: rest) =>
    match matchArgAt s with
    | some (kv, rem) => kv :: scanArgs fuel rem
    | none => scanArgs fuel rest

/-- JS object assignment `obj[k] = v`: overwrite in place or append. -/
def setKey (fs : List (Str × JValue)) (k : Str) (v : JValue) : List (Str × JValue) :=
  if fs.any (fun f => f.1 = k) then replaceFirst (fun f => f.1 = k) (k, v) fs
  else fs ++ [(k, v)]

/-- The fixed allow-list `knownTools` of ai.ts. -/
def knownTools : List Str :=
  ["get_funny_image".data, "search_web".data, "extract_url_content".data,
   "save_memory".data, "set_reminder".data, "delete_memory".data,
   "change_user_reputation".data, "update_relationship".data, "get_chat_info".data]

/-- Correlation id supply standing for `call_${Math.random()...}`. -/
def mkCallId (n : Nat) : Str := "call_".data ++ (toString n).data

/-- Build invocations from Format-1 occurrences.  A missing args capture
(JS `undefined.trim()` TypeError) or a JSON parse failure is caught by the
loop's local try/catch and skipped. -/
def buildF1 : List (Str × Option Str) → Nat → List ToolCall × Nat
  | [], n => ([], n)
  | (name, argsOpt) :: rest, n =>
    match argsOpt with
    | none => buildF1 rest n
    | some a =>
      match parseJson (trimStr a) with
      | some v =>
        let tc : ToolCall :=
          { id := mkCallId n, type := "function".data,
            function := { name := some name, arguments := some (stringifyJ v) } }
        let r := buildF1 rest (n + 1)
        (tc :: r.1, r.2)
      | none => buildF1 rest n

/-- One Format-2 entry: `name` is kept when it is a string (a non-string or
missing `name` is undefined-like and later fails dispatch, as in JS);
`arguments` is taken verbatim when a string, else `JSON.stringify`ed, and is
undefined when missing. -/
def f2Entry (n : Nat) (t : JValue) : ToolCall :=
  { id := mkCallId n, type := "function".data,
    function :=
      { name := match objGet t ("name".data) with
          | some (.jstr s) => some s
          | _ => none,
        arguments := match objGet t ("arguments".data) with
          | some (.jstr s) => some s
          | some v => some (stringifyJ v)
          | none => none } }

/-- Entries of one parsed Format-2 wrapper. -/
def buildF2entries : List JValue → Nat → List ToolCall × Nat
  | [], n => ([], n)
  | t :: ts, n =>
    let tc := f2Entry n t
    let r := buildF2entries ts (n + 1)
    (tc :: r.1, r.2)

/-- Build invocations from Format-2 occurrences; a parse failure skips the
whole occurrence. -/
def buildF2 : List Str → Nat → List ToolCall × Nat
  | [], n => ([], n)
  | inner :: rest, n =>
    match parseJson (trimStr inner) with
    | some data =>
      let arr := match data with
        | .jarr l => l
        | v => [v]
      let r1 := buildF2entries arr n
      let r2 := buildF2 rest r1.2
      (r1.1 ++ r2.1, r2.2)
    | none => buildF2 rest n

/-- Build invocations from Format-3 occurrences: only allow-listed names are
kept; arguments come from the `key="value"` scan. -/
def buildF3 : List (Str × Str) → Nat → List ToolCall × Nat
  | [], n => ([], n)
  | (fn, argsString) :: rest, n =>
    if fn ∈ knownTools then
      let pairs := scanArgs argsString.length argsString
      let fields := pairs.foldl (fun acc kv => setKey acc kv.1 (.jstr kv.2)) []
      let tc : ToolCall :=
        { id := mkCallId n, type := "function".data,
          function := { name := some fn, arguments := some (stringifyJ (.jobj fields)) } }
      let r := buildF3 rest (n + 1)
      (tc :: r.1, r.2)
    else buildF3 rest n

/-- ai.ts lines 301–371: extract the textual tool calls of all three
encodings, in push order. -/
def extractTextToolCalls (content : Str) : List ToolCall :=
  let r1 := buildF1 (scanF1 content.length content) 0
  let r2 := buildF2 (scanF2 content.length content) r1.2
  let r3 := buildF3 (scanF3 content.length content) r2.2
  r1.1 ++ r2.1 ++ r3.1

/-- Global replace-with-empty driven by a head matcher returning the remainder
after a match (JS `String.replace` with a global regex and `''`). -/
def removeScan (m : Str → Option Str) : Nat → Str → Str
  | 0, s => s
  | _, [] => []
  | fuel + 1, s@(c :: rest) =>
    match m s with
    | some rem => removeScan m fuel rem
    | none => c :: removeScan m fuel rest

/-- Head matcher for a literal pattern. -/
def mLit (pat : Str) (s : Str) : Option Str :=
  if !pat.isEmpty && seqAt pat s then some (s.drop pat.length) else none

/-- Head matcher for `<function\(.*?\)>.*?<\/function>` (dot-all, lazy). -/
def mClean1 (s : Str) : Option Str :=
  if seqAt ("<function(".data) s then
    match splitUntilSeq (")>".data) (s.drop 10) with
    | some (_, rest) =>
      match splitUntilSeq ("</function>".data) rest with
      | some (_, rem) => some rem
      | none => none
    | none => none
  else none

/-- Head matcher for `<function\(.*?\){.*?}<\/function>` (dot-all, lazy). -/
def mClean2 (s : Str) : Option Str :=
  if seqAt ("<function(".data) s then
    match splitUntilSeq [')', obrace] (s.drop 10) with
    | some (_, rest) =>
      match splitUntilSeq (cbrace :: ("</function>".data)) rest with
      | some (_, rem) => some rem
      | none => none
    | none => none
  else none

/-- Head matcher for a lazy `open.*?close` delimiter pair. -/
def mCleanDelim (openPat closePat : Str) (s : Str) : Option Str :=
  if seqAt openPat s then
    match splitUntilSeq closePat (s.drop openPat.length) with
    | some (_, rem) => some rem
    | none => none
  else none

/-- Head matcher for `${toolName}\([^)]+\)`. -/
def mCleanTool (toolName : Str) (s : Str) : Option Str :=
  if seqAt (toolName ++ ['(']) s then
    let tail := s.drop (toolName.length + 1)
    let args := tail.takeWhile (fun c => c ≠ ')')
    if args.isEmpty then none
    else
      match tail.drop args.length with
      | ')' :: rem => some rem
      | _ => none
  else none

/-- ai.ts lines 373–384: strip tool-call markup and thinking blocks from the
visible text, then trim. -/
def cleanContent (content : Str) : Str :=
  let c1 := removeScan (mLit ("<|python_tag|>".data)) content.length content
  let c2 := removeScan mClean1 c1.length c1
  let c3 := removeScan mClean2 c2.length c2
  let c4 := removeScan (mCleanDelim ("<tools>".data) ("</tools>".data)) c3.length c3
  let c5 := removeScan (mCleanDelim ("<think>".data) ("</think>".data)) c4.length c4
  let c6 := knownTools.foldl (fun acc tn => removeScan (mCleanTool tn) acc.length acc) c5
  trimStr c6

/-- The LLM provider's reply: `choices[0].message` content and structured
tool calls.  A transport error and a missing message both surface to the
orchestrator as "no result" (`none`) — the source maps both to `return null`. -/
structure ProviderReply where
  content : Option Str
  toolCalls : List ToolCall
deriving DecidableEq

/-- The external collaborators (§6 of the spec): the LLM provider and the
three tool backends.  Backends may throw (`Except.error`), as the real
DuckDuckGo/Giphy implementations in tools.ts do, or return result text. -/
structure Env where
  provider : List Msg → Option ProviderReply
  searchWeb : Option JValue → Except Str Str
  getFunnyImage : Option JValue → Except Str Str
  extractUrlContent : Option JValue → Except Str Str

/-- `rawFnName.toLowerCase().replace(/_/g, "")`. -/
def normalizeFnName (s : Str) : Str :=
  (s.map Char.toLower).filter (fun c => c ≠ '_')

/-- The orchestrator's result (text and/or one photo). -/
structure BotResponse where
  text : Option Str
  photo : Option Photo
deriving DecidableEq

/-- The fixed fallback text returned past the depth ceiling. -/
def fallbackText : Str := "Уф, я немного запутался. Давай попробуем еще раз.".data

/-- The fallback response object. -/
def fallbackResponse : BotResponse := { text := some fallbackText, photo := none }

/-- JS truthiness of a possibly-absent string. -/
def truthyS : Option Str → Bool
  | none => false
  | some s => !s.isEmpty

/-- The callback generateResponse receives for `set_reminder` (index.ts wires
it to `addReminder` with the trigger's chat and user). -/
abbrev ReminderCb := Rat → Str → Store → Store

/-- ai.ts lines 392–490, one iteration body: dispatch a single tool call.
Explicitly-checked failures become `.ok` result strings; an undefined name,
an argument-JSON parse failure, or a throwing backend is an uncaught
exception (`.error`) — there is no per-call try/catch in the source. -/
def dispatchOne (env : Env) (userId chatId : Int) (onReminder : Option ReminderCb)
    (tc : ToolCall) (buf : Buf) (st : Store) : Buf × Store × Except Str Str :=
  match tc.function.name with
  | none => (buf, st, .error ("TypeError: toLowerCase of undefined".data))
  | some rawFnName =>
    let normFnName := normalizeFnName rawFnName
    let parsed := match tc.function.arguments with
      | some a => parseJson a
      | none => none
    match parsed with
    | none => (buf, st, .error ("SyntaxError: invalid JSON in tool call arguments".data))
    | some args =>
      if normFnName = "searchweb".data then
        match env.searchWeb (jsOrV (objGet args ("query".data))
            (jsOrV (objGet args ("keyword".data)) (objGet args ("q".data)))) with
        | .ok r => (buf, st, .ok r)
        | .error e => (buf, st, .error e)
      else if normFnName = "getfunnyimage".data then
        match env.getFunnyImage (jsOrV (objGet args ("keyword".data))
            (jsOrV (objGet args ("query".data)) (objGet args ("q".data)))) with
        | .error e => (buf, st, .error e)
        | .ok imageResult =>
          match parseJson imageResult with
          | some photoData =>
            let isPhoto := match objGet photoData ("type".data) with
              | some (.jstr t) => t = "photo".data
              | _ => false
            if isPhoto && truthyV (objGet photoData ("url".data)) then
              let url := match objGet photoData ("url".data) with
                | some v => jsToStr v
                | none => []
              let caption := match objGet photoData ("caption".data) with
                | some (.jstr s) => some s
                | _ => none
              ({ buf with photoToSend := some { url := url, caption := caption } }, st,
               .ok ("Photo will be sent".data))
            else (buf, st, .ok imageResult)
          | none => (buf, st, .ok imageResult)
      else if normFnName = "extracturlcontent".data then
        match env.extractUrlContent (objGet args ("url".data)) with
        | .ok r => (buf, st, .ok r)
        | .error e => (buf, st, .error e)
      else if normFnName = "savememory".data then
        let ttl := jsOrV (objGet args ("ttl_seconds".data))
          (jsOrV (objGet args ("ttl".data)) (objGet args ("duration".data)))
        let factV := jsOrV (objGet args ("fact".data))
          (jsOrV (objGet args ("memory".data)) (objGet args ("text".data)))
        (buf, addFact st userId (jsDisp factV),
         .ok ("Memory saved: ".data ++ jsDisp factV ++ " (TTL: ".data ++
              (if truthyV ttl then jsDisp ttl else "inf".data) ++ (")".data)))
      else if normFnName = "deletememory".data then
        let factV := jsOrV (objGet args ("fact".data))
          (jsOrV (objGet args ("memory".data)) (objGet args ("text".data)))
        (buf, deleteFact st userId (jsDisp factV),
         .ok ("Memory deleted: ".data ++ jsDisp factV))
      else if normFnName = "setreminder".data then
        let seconds := jsOrV (objGet args ("seconds".data))
          (jsOrV (objGet args ("time".data)) (objGet args ("delay".data)))
        let text := jsOrV (objGet args ("text".data))
          (jsOrV (objGet args ("message".data)) (objGet args ("reminder".data)))
        if (match toNumberJS seconds with
            | some q => decide (q < 3600)
            | none => false) then
          (buf, st, .ok ("Error: Minimum reminder time is 1 hour (3600 seconds). Got: ".data ++ jsDisp seconds))
        else
          let missing : Buf × Store × Except Str Str :=
            (buf, st, .ok ("Error: Missing parameters for reminder (seconds: ".data ++
              jsDisp seconds ++ ", text: ".data ++ jsDisp text ++ (")".data)))
          match onReminder with
          | some cb =>
            match seconds with
            | some (.jnum q) =>
              if truthyV text then
                (buf, cb q (jsDisp text) st,
                 .ok ("Reminder set for ".data ++ intToStr (jsRound (q / 3600)) ++ " hours.".data))
              else missing
            | _ => missing
          | none => missing
      else if normFnName = "changeuserreputation".data then
        match parseIntJS (objGet args ("user_id".data)) with
        | none => (buf, st, .ok ("Error: user_id must be a numeric string. Got: ".data ++
            jsDisp (objGet args ("user_id".data))))
        | some targetId =>
          (buf, changeReputation st targetId ((toNumberJS (objGet args ("amount".data))).getD 0),
           .ok ("Reputation of user ".data ++ intToStr targetId ++ " changed by ".data ++
                jsDisp (objGet args ("amount".data)) ++ ". Reason: ".data ++
                jsDisp (objGet args ("reason".data))))
      else if normFnName = "updaterelationship".data then
        match parseIntJS (objGet args ("user_id_1".data)), parseIntJS (objGet args ("user_id_2".data)) with
        | some id1, some id2 =>
          let delta := (toNumberJS (objGet args ("affection_delta".data))).getD 0
          let status := match objGet args ("status".data) with
            | some v => if truthyV (some v) then some (jsToStr v) else none
            | none => none
          (buf, updateRelationship st chatId id1 id2 delta status,
           .ok ("Relationship between ".data ++ intToStr id1 ++ " and ".data ++ intToStr id2 ++
                " updated (delta: ".data ++ jsDisp (objGet args ("affection_delta".data)) ++ (").".data)))
        | _, _ => (buf, st, .ok ("Error: user_id_1 and user_id_2 must be numeric strings.".data))
      else if normFnName = "getchatinfo".data then
        let users := getAllUsersInChat st chatId
        let rels := getRelationships st chatId
        let result := stringifyJ (.jobj
          [("users".data, .jarr (users.map (fun u => .jobj (
              [("id".data, .jstr u.id)] ++
              (match u.first_name with
               | some n => [("name".data, .jstr n)]
               | none => []) ++
              (match u.username with
               | some n => [("username".data, .jstr n)]
               | none => []) ++
              [("reputation".data, .jnum u.reputation)])))),
           ("relationships".data, .jarr (rels.map (fun r => .jobj (
              [("user1".data, .jstr r.user_id_1), ("user2".data, .jstr r.user_id_2),
               ("affection".data, .jnum r.affection)] ++
              (match r.status with
               | some s => [("status".data, .jstr s)]
               | none => [])))))])
        (buf, st, .ok result)
      else (buf, st, .ok ("Unknown tool.".data))

/-- The dispatch loop of ai.ts (lines 392–491): skip non-function entries,
dispatch sequentially, cap each result at 10000 characters, and append one
tool-result message per invocation.  The third component is `some e` when the
loop is aborted by an uncaught exception; partial message/store effects up to
that point persist (JS exceptions do not roll back completed awaits). -/
def processToolCalls (env : Env) (userId chatId : Int) (onReminder : Option ReminderCb) :
    List ToolCall → Buf → Store → Buf × Store × Option Str
  | [], buf, st => (buf, st, none)
  | tc :: rest, buf, st =>
    if tc.type ≠ "function".data then
      processToolCalls env userId chatId onReminder rest buf st
    else
      match dispatchOne env userId chatId onReminder tc buf st with
      | (buf', st', .error e) => (buf', st', some e)
      | (buf', st', .ok res0) =>
        let res := if res0.length > 10000 then res0.take 10000 ++ "... [truncated]".data else res0
        let toolMsg : Msg :=
          { role := "tool".data, content := some res, name := none,
            tool_call_id := some tc.id, tool_calls := none }
        processToolCalls env userId chatId onReminder rest
          { buf' with msgs := buf'.msgs ++ [toolMsg] } st'

/-- The summarization prompt of ai.ts `summarizeHistory`. -/
def summaryPromptText : Str :=
  ("\n      Сделай краткую выжимку этого диалога на русском языке. \n      Укажи ключевые темы, принятые решения и важные детали о пользователях.\n      Пиши кратко, в 2-3 предложениях.\n    ").data

/-- ai.ts `summarizeHistory`: skip under 15000 serialized characters; else ask
the provider for a synopsis of all but the last message.  A truthy reply
content is persisted via `updateChatSummary` and yields `true`.  The third
component counts provider calls made (0 or 1); a provider transport error is
absorbed by the function's own try/catch and yields `false`. -/
def summarizeHistory (env : Env) (chatId : Int) (msgs : List Msg) (st : Store) :
    Bool × Store × Nat :=
  let totalChars := (stringifyList msgs).length
  if totalChars < 15000 then (false, st, 0)
  else
    let summaryMessages := msgs.dropLast ++ [userMsg ("system".data) summaryPromptText]
    match env.provider summaryMessages with
    | none => (false, st, 1)
    | some reply =>
      match reply.content with
      | some s => if s.isEmpty then (false, st, 1) else (true, updateChatSummary st chatId s, 1)
      | none => (false, st, 1)

/-- The stealth-mode directive appended to the system message in background
mode at depth 0. -/
def stealthPromptText : Str :=
  ("\n        [STEALTH MODE]\n        You are monitoring the chat silently. \n        DO NOT respond with text unless it is absolutely critical.\n        Use tools (save_memory, set_reminder, update_relationship) only if you see something new and important.\n        If there is nothing important to do, return an empty response or just use tools and then stay silent.\n      ").data

/-- `messages.find(m => m.role === 'system')` followed by in-place
`content += stealthPrompt` (a null content concatenates as the string
"null", as `+=` does in JS). -/
def appendToSystem : List Msg → List Msg
  | [] => []
  | m :: rest =>
    if m.role = "system".data then
      { m with content := some ((match m.content with
          | some c => c
          | none => "null".data) ++ stealthPromptText) } :: rest
    else m :: appendToSystem rest

/-- ai.ts lines 226–238: the background-mode stealth adjustment. -/
def stealthAdjust (background : Bool) (depth : Nat) (buf : Buf) : Buf :=
  if background && depth = 0 then { buf with msgs := appendToSystem buf.msgs } else buf

/-- The inner keep-loop of the truncation step (ai.ts lines 267–273), applied
to the non-system messages newest first: keep while the running character
total stays within MAX_CHARS = 40000, stop at the first message that does not
fit. -/
def keepNewest : List Msg → Nat → List Msg
  | [], _ => []
  | m :: rest, current =>
    let msgLen := (stringifyMsg m).length
    if current + msgLen > 40000 then []
    else m :: keepNewest rest (current + msgLen)

/-- ai.ts lines 258–278: when the serialized size exceeds MAX_CHARS = 40000,
rebuild the buffer from the leading system message (when present) plus the
newest non-system messages that fit; the rebuilt array loses the
`__photoToSend` expando. -/
def truncateIfNeeded (buf : Buf) : Buf :=
  let totalChars := (stringifyList buf.msgs).length
  if totalChars > 40000 then
    let systemMsg := match buf.msgs with
      | m :: _ => if m.role = "system".data then some m else none
      | [] => none
    let others := match systemMsg with
      | some _ => buf.msgs.drop 1
      | none => buf.msgs
    let c0 := match systemMsg with
      | some m => (stringifyMsg m).length
      | none => 0
    let kept := (keepNewest others.reverse c0).reverse
    { msgs := (match systemMsg with
        | some m => m :: kept
        | none => kept),
      photoToSend := none }
  else buf

/-- ai.ts lines 240–278: the context-management block of `generateResponse` —
summarize-then-slice at depth 0 above 60000 characters, then truncate above
40000.  The third component counts provider calls made. -/
def compactionStage (env : Env) (chatId : Int) (depth : Nat) (buf : Buf) (st : Store) :
    Buf × Store × Nat :=
  let totalChars := (stringifyList buf.msgs).length
  let step1 : Buf × Store × Nat :=
    if totalChars > 60000 && depth = 0 then
      match summarizeHistory env chatId buf.msgs st with
      | (true, st', c) =>
        let systemMsg := match buf.msgs with
          | m :: _ => if m.role = "system".data then some m else none
          | [] => none
        let recent := buf.msgs.drop (buf.msgs.length - 10)
        ({ msgs := (match systemMsg with
            | some m => m :: recent
            | none => recent),
           photoToSend := none }, st', c)
      | (false, st', c) => (buf, st', c)
    else (buf, st, 0)
  (truncateIfNeeded step1.1, step1.2.1, step1.2.2)

/-- `message.content || ""`. -/
def contentRaw (reply : ProviderReply) : Str :=
  match reply.content with
  | some c => c
  | none => []

/-- The structured tool calls merged with the text-extracted ones, in the
order the source pushes them. -/
def mergedToolCalls (reply : ProviderReply) : List ToolCall :=
  reply.toolCalls ++ extractTextToolCalls (contentRaw reply)

/-- The assistant tool-call message pushed onto the buffer
(`{...message, content: content || null, tool_calls: toolCalls}`). -/
def assistantMsgOf (reply : ProviderReply) : Msg :=
  { role := "assistant".data,
    content := if (cleanContent (contentRaw reply)).isEmpty then none
      else some (cleanContent (contentRaw reply)),
    name := none, tool_call_id := none, tool_calls := some (mergedToolCalls reply) }

/-- ai.ts `generateResponse`, with an explicit structural fuel so that the
definition evaluates in the kernel.  The source recursion increments `depth`
and stops past the ceiling of 5; `fuel = 6 - depth` at every call site makes
the fuel-exhaustion arm unreachable.  The third component of the result is
the number of provider calls made (generation and summarization alike).
The `temperature` parameter of the source is passed through to the provider
transport unchanged and never branches, so it is not carried here. -/
def generateResponseAux (fuel : Nat) (env : Env) (userId chatId : Int)
    (onReminder : Option ReminderCb) (background : Bool)
    (buf : Buf) (st : Store) (depth : Nat) : Option BotResponse × Store × Nat :=
  if depth > 5 then (some fallbackResponse, st, 0)
  else
    let buf1 := stealthAdjust background depth buf
    let cres := compactionStage env chatId depth buf1 st
    let buf2 := cres.1
    let st2 := cres.2.1
    let c2 := cres.2.2
    match env.provider buf2.msgs with
    | none => (none, st2, c2 + 1)
    | some reply =>
      let toolCalls := mergedToolCalls reply
      let content := cleanContent (contentRaw reply)
      if toolCalls.isEmpty then
        let finalResponse : Option Str := if content.isEmpty then reply.content else some content
        match buf2.photoToSend with
        | some ph =>
          (some { text := if truthyS finalResponse then finalResponse else none, photo := some ph },
           st2, c2 + 1)
        | none =>
          (if truthyS finalResponse then
            some ({ text := finalResponse, photo := none } : BotResponse)
          else none, st2, c2 + 1)
      else
        let bufP : Buf := { buf2 with msgs := buf2.msgs ++ [assistantMsgOf reply] }
        let pres := processToolCalls env userId chatId onReminder toolCalls bufP st2
        match pres.2.2 with
        | some _ => (none, pres.2.1, c2 + 1)
        | none =>
          match fuel with
          | 0 => (none, pres.2.1, c2 + 1)
          | fuel' + 1 =>
            let r := generateResponseAux fuel' env userId chatId onReminder background
              pres.1 pres.2.1 (depth + 1)
            (r.1, r.2.1, c2 + 1 + r.2.2)

/-- ai.ts `generateResponse` at its public signature. -/
def generateResponse (env : Env) (userId chatId : Int)
    (onReminder : Option ReminderCb) (background : Bool)
    (buf : Buf) (st : Store) (depth : Nat) : Option BotResponse × Store × Nat :=
  generateResponseAux (6 - depth) env userId chatId onReminder background buf st depth


/-- Unsent reminders for one (chat, user) pair. -/
def unsentCount (st : Store) (c u : Str) : Nat :=
  (st.reminders.filter (fun r => r.chat_id = c && r.user_id = u && r.is_sent = false)).length

theorem char_toNat_inj {a b : Char} (h : a.toNat = b.toNat) : a = b := by
  have hval : a.val = b.val := UInt32.eq_of_val_eq (Fin.ext h)
  exact Char.eq_of_val_eq hval

theorem strLt_asymm : ∀ a b : Str, strLt a b = true → strLt b a = false := by
  intro a
  induction a with
  | nil =>
    intro b h
    cases b with
    | nil => simp [strLt] at h
    | cons y ys => simp [strLt]
  | cons x xs ih =>
    intro b h
    cases b with
    | nil => simp [strLt] at h
    | cons y ys =>
      simp only [strLt] at h ⊢
      by_cases hxy : x = y
      · subst hxy
        simp only [if_pos rfl] at h ⊢
        exact ih ys h
      · have hne : ¬ y = x := fun hyx => hxy hyx.symm
        simp only [if_neg hxy] at h
        simp only [if_neg hne]
        have := of_decide_eq_true h
        simp only [decide_eq_false_iff_not]
        omega

theorem strLt_both_false : ∀ a b : Str, strLt a b = false → strLt b a = false → a = b := by
  intro a
  induction a with
  | nil =>
    intro b h1 _
    cases b with
    | nil => rfl
    | cons y ys => simp [strLt] at h1
  | cons x xs ih =>
    intro b h1 h2
    cases b with
    | nil => simp [strLt] at h2
    | cons y ys =>
      simp only [strLt] at h1 h2
      by_cases hxy : x = y
      · subst hxy
        simp only [if_pos rfl] at h1 h2
        rw [ih ys h1 h2]
      · have hne : ¬ y = x := fun hyx => hxy hyx.symm
        simp only [if_neg hxy] at h1
        simp only [if_neg hne] at h2
        have u1 := of_decide_eq_false h1
        have u2 := of_decide_eq_false h2
        exact absurd (char_toNat_inj (by omega)) hxy

theorem sortPairStr_comm (x y : Str) : sortPairStr x y = sortPairStr y x := by
  unfold sortPairStr
  cases h1 : strLt y x with
  | true =>
    have h2 := strLt_asymm y x h1
    simp [h1, h2]
  | false =>
    cases h2 : strLt x y with
    | true => simp [h1, h2]
    | false =>
      have := strLt_both_false y x h1 h2
      simp [h1, h2, this]

/-- C10: `updateRelationship(chat, a, b, delta, status)` and
`updateRelationship(chat, b, a, delta, status)` canonicalize the user pair by
sorting the two ids as strings, so they read and update the same relationship
record with the same effect: the order of the two user-id arguments never
matters. -/
theorem updateRelationship_symm (st : Store) (chatId : Int) (a b : Int)
    (delta : Rat) (status : Option Str) :
    updateRelationship st chatId a b delta status = updateRelationship st chatId b a delta status := by
  unfold updateRelationship
  rw [sortPairStr_comm]

/-- C5: the Chat Concurrency Guard is a non-blocking try-acquire lock: of two
acquires on the same id without a release, exactly the first succeeds and the
second fails immediately; after `unlockChat` the id can be acquired again;
locks on distinct ids are independent. -/
theorem lockChat_try_acquire (s : List Int) (c c2 : Int)
    (hc : c ∉ s) (hne : c2 ≠ c) (hc2 : c2 ∉ s) :
    (lockChat c s).1 = true ∧
    (lockChat c (lockChat c s).2).1 = false ∧
    (lockChat c (unlockChat c (lockChat c s).2)).1 = true ∧
    (lockChat c2 (lockChat c s).2).1 = true := by
  have hfst : lockChat c s = (true, c :: s) := by
    unfold lockChat
    rw [if_neg hc]
  refine ⟨by rw [hfst], ?_, ?_, ?_⟩
  · rw [hfst]
    unfold lockChat
    rw [if_pos (List.mem_cons_self c s)]
  · rw [hfst]
    have hfil : unlockChat c (c :: s) = s.filter (fun x => x ≠ c) := by
      unfold unlockChat
      simp [List.filter_cons]
    rw [hfil]
    have hnm : c ∉ s.filter (fun x => x ≠ c) := by
      intro hmem
      have := List.of_mem_filter hmem
      simp at this
    unfold lockChat
    rw [if_neg hnm]
  · rw [hfst]
    have hnm2 : c2 ∉ c :: s := by
      intro hmem
      rcases List.mem_cons.mp hmem with h | h
      · exact hne h
      · exact hc2 h
    unfold lockChat
    rw [if_neg hnm2]

theorem lockChat_try_acquire_witness :
    (lockChat 1 []).1 = true ∧
    (lockChat 1 (lockChat 1 []).2).1 = false ∧
    (lockChat 1 (unlockChat 1 (lockChat 1 []).2)).1 = true ∧
    (lockChat 2 (lockChat 1 []).2).1 = true :=
  lockChat_try_acquire [] 1 2 (by decide) (by decide) (by decide)

/-- C7: `getPendingReminders` returns exactly the unsent rows due at or before
the sweep time and deletes nothing (`markReminderSent` keeps every row); after
`markReminderSent(id)` on a returned row, no row with that id appears in any
later sweep's result set. -/
theorem getPendingReminders_spec (st : Store) (now now2 : Int) (r : ReminderRow) :
    (r ∈ getPendingReminders now st ↔ r ∈ st.reminders ∧ r.is_sent = false ∧ r.due_at ≤ now) ∧
    (∀ id, (markReminderSent id st).reminders.length = st.reminders.length) ∧
    (r ∈ getPendingReminders now st →
      ∀ r2 ∈ getPendingReminders now2 (markReminderSent r.id st), r2.id ≠ r.id) := by
  refine ⟨?_, ?_, ?_⟩
  · unfold getPendingReminders
    rw [List.mem_filter]
    constructor
    · rintro ⟨hmem, hcond⟩
      simp only [Bool.and_eq_true, decide_eq_true_eq] at hcond
      exact ⟨hmem, hcond.1, hcond.2⟩
    · rintro ⟨hmem, h1, h2⟩
      refine ⟨hmem, ?_⟩
      simp only [Bool.and_eq_true, decide_eq_true_eq]
      exact ⟨h1, h2⟩
  · intro id
    unfold markReminderSent
    simp
  · intro _ r2 h2 heq
    unfold getPendingReminders markReminderSent at h2
    simp only [List.mem_filter, List.mem_map] at h2
    rcases h2 with ⟨⟨r0, _, hr0⟩, hcond⟩
    simp only [Bool.and_eq_true, decide_eq_true_eq] at hcond
    by_cases hid : r0.id = r.id
    · rw [if_pos hid] at hr0
      rw [← hr0] at hcond
      simp at hcond
    · rw [if_neg hid] at hr0
      rw [← hr0] at heq
      exact hid heq

/-- Concrete store for the C7 witness. -/
def stwC7 : Store :=
  { emptyStore with reminders := [⟨0, "1".data, "2".data, "hey".data, 100, false⟩] }

/-- Concrete reminder row for the C7 witness. -/
def rwC7 : ReminderRow := ⟨0, "1".data, "2".data, "hey".data, 100, false⟩

theorem getPendingReminders_spec_witness :
    (rwC7 ∈ getPendingReminders 500 stwC7 ↔
      rwC7 ∈ stwC7.reminders ∧ rwC7.is_sent = false ∧ rwC7.due_at ≤ 500) ∧
    (∀ id, (markReminderSent id stwC7).reminders.length = stwC7.reminders.length) ∧
    (rwC7 ∈ getPendingReminders 500 stwC7 →
      ∀ r2 ∈ getPendingReminders 900 (markReminderSent rwC7.id stwC7), r2.id ≠ rwC7.id) :=
  getPendingReminders_spec stwC7 500 900 rwC7

/-- The row `addReminder` inserts when no active reminder exists. -/
def addReminderRow (st : Store) (chatId userId : Int) (text : Str) (dueAt : Int) : ReminderRow :=
  { id := st.nextReminderId, chat_id := intToStr chatId, user_id := intToStr userId,
    text := text, due_at := dueAt, is_sent := false }

/-- C9: when an unsent reminder already exists for the (chat, user) pair,
`addReminder` is a no-op regardless of the new text and due time, so every
`addReminder` call preserves the invariant "at most one unsent reminder per
user per chat". -/
theorem addReminder_invariant (st : Store) (chatId userId : Int) (text : Str) (dueAt : Int)
    (hInv : ∀ c u, unsentCount st c u ≤ 1) :
    ((∃ r ∈ st.reminders,
        r.chat_id = intToStr chatId ∧ r.user_id = intToStr userId ∧ r.is_sent = false) →
      addReminder st chatId userId text dueAt = st) ∧
    (∀ c u, unsentCount (addReminder st chatId userId text dueAt) c u ≤ 1) := by
  cases hf : st.reminders.find? (fun r =>
      r.chat_id = intToStr chatId && r.user_id = intToStr userId && r.is_sent = false) with
  | some r0 =>
    have hnoop : addReminder st chatId userId text dueAt = st := by
      simp only [addReminder]
      rw [hf]
    rw [hnoop]
    exact ⟨fun _ => rfl, hInv⟩
  | none =>
    have hnone := List.find?_eq_none.mp hf
    have hbody : addReminder st chatId userId text dueAt =
        { st with
          reminders := st.reminders ++ [addReminderRow st chatId userId text dueAt],
          nextReminderId := st.nextReminderId + 1 } := by
      simp only [addReminder]
      rw [hf]
      rfl
    rw [hbody]
    constructor
    · rintro ⟨r, hmem, h1, h2, h3⟩
      have := hnone r hmem
      simp only [Bool.and_eq_true, decide_eq_true_eq] at this
      exact (this ⟨⟨h1, h2⟩, h3⟩).elim
    · intro c u
      unfold unsentCount
      simp only [List.filter_append, List.length_append]
      by_cases hp : (((intToStr chatId : Str) = c) ∧ ((intToStr userId : Str) = u))
      · have hold : st.reminders.filter
            (fun r => r.chat_id = c && r.user_id = u && r.is_sent = false) = [] := by
          rw [List.filter_eq_nil_iff]
          intro a hmem
          have := hnone a hmem
          rw [← hp.1, ← hp.2]
          simpa using this
        rw [hold]
        have hle := List.length_filter_le
          (fun r => r.chat_id = c && r.user_id = u && r.is_sent = false)
          [addReminderRow st chatId userId text dueAt]
        simp only [List.length_nil, Nat.zero_add]
        simpa using hle
      · have hsing : List.filter (fun r => r.chat_id = c && r.user_id = u && r.is_sent = false)
            [addReminderRow st chatId userId text dueAt] = [] := by
          rw [List.filter_eq_nil_iff]
          intro a hmem
          rw [List.mem_singleton] at hmem
          subst hmem
          simp only [Bool.and_eq_true, decide_eq_true_eq]
          exact fun h => hp ⟨h.1.1, h.1.2⟩
        rw [hsing]
        have huc := hInv c u
        unfold unsentCount at huc
        simpa using huc

/-- Concrete store for the C9 witness. -/
def stwC9 : Store :=
  { emptyStore with reminders := [⟨0, "1".data, "2".data, "hey".data, 100, false⟩] }

theorem addReminder_invariant_witness :
    ((∃ r ∈ stwC9.reminders,
        r.chat_id = intToStr 1 ∧ r.user_id = intToStr 2 ∧ r.is_sent = false) →
      addReminder stwC9 1 2 ("x".data) 50 = stwC9) ∧
    (∀ c u, unsentCount (addReminder stwC9 1 2 ("x".data) 50) c u ≤ 1) :=
  addReminder_invariant stwC9 1 2 ("x".data) 50
    (fun c u => le_trans (List.length_filter_le _ _) (by simp [stwC9, emptyStore]))


theorem find?_replaceFirst {α} (p : α → Bool) (x : α) (l : List α)
    (hx : p x = true) (hl : l.any p = true) : (replaceFirst p x l).find? p = some x := by
  induction l with
  | nil => simp at hl
  | cons e es ih =>
    by_cases hpe : p e = true
    · unfold replaceFirst
      rw [if_pos hpe]
      simp [List.find?, hx]
    · unfold replaceFirst
      rw [if_neg hpe]
      have hpe' : p e = false := Bool.eq_false_iff.mpr hpe
      simp only [List.find?, hpe']
      apply ih
      simp only [List.any_cons, hpe', Bool.false_or] at hl
      exact hl

theorem find?_replaceFirst_other {α} (p q : α → Bool) (x : α) (l : List α)
    (hx : q x = false) (himp : ∀ a, p a = true → q a = false) :
    (replaceFirst p x l).find? q = l.find? q := by
  induction l with
  | nil => rfl
  | cons e es ih =>
    by_cases hpe : p e = true
    · unfold replaceFirst
      rw [if_pos hpe]
      simp only [List.find?, hx, himp e hpe]
    · unfold replaceFirst
      rw [if_neg hpe]
      cases hqe : q e with
      | true => simp [List.find?, hqe]
      | false => simp only [List.find?, hqe]; exact ih

theorem mem_replaceFirst {α} (p : α → Bool) (x : α) (l : List α) :
    ∀ a ∈ replaceFirst p x l, a ∈ l ∨ a = x := by
  induction l with
  | nil => intro a ha; simp [replaceFirst] at ha
  | cons e es ih =>
    intro a ha
    by_cases hpe : p e = true
    · unfold replaceFirst at ha
      rw [if_pos hpe] at ha
      rcases List.mem_cons.mp ha with h | h
      · right; exact h
      · left; exact List.mem_cons_of_mem e h
    · unfold replaceFirst at ha
      rw [if_neg hpe] at ha
      rcases List.mem_cons.mp ha with h | h
      · left; rw [h]; exact List.mem_cons_self e es
      · rcases ih a h with h2 | h2
        · left; exact List.mem_cons_of_mem e h2
        · right; exact h2

/-- Well-formedness of the timer state: every pending idle timeout carries the
handle currently recorded for its chat; recorded handles predate the
allocation counter; a handle is recorded for at most one chat; and the pending
multiset has no duplicates. -/
def TimerInv (s : TimerSys) : Prop :=
  (∀ e ∈ s.pending, timerFor e.2 s = some e.1) ∧
  (∀ p ∈ s.chatTimers, p.2 < s.nextHandle) ∧
  (∀ p ∈ s.chatTimers, ∀ q ∈ s.chatTimers, p.2 = q.2 → p.1 = q.1) ∧
  s.pending.Nodup

theorem timerFor_mem {c : Int} {h : Nat} {s : TimerSys} (ht : timerFor c s = some h) :
    (c, h) ∈ s.chatTimers := by
  unfold timerFor at ht
  cases hf : s.chatTimers.find? (fun e => e.1 = c) with
  | none => rw [hf] at ht; exact Option.noConfusion ht
  | some e =>
    rw [hf] at ht
    have hmem := List.mem_of_find?_eq_some hf
    have hkey : e.1 = c := by
      have := List.find?_some hf
      simpa using this
    injection ht with ht2
    have : e = (c, h) := by
      cases e
      simp only at hkey ht2
      rw [hkey, ht2]
    rw [← this]
    exact hmem

theorem pending_handle_lt {s : TimerSys} (hInv : TimerInv s) :
    ∀ e ∈ s.pending, e.1 < s.nextHandle := by
  intro e he
  have h1 := hInv.1 e he
  have hmem := timerFor_mem h1
  exact hInv.2.1 (e.2, e.1) hmem

theorem resetIdleTimer_eq (c : Int) (s : TimerSys) :
    resetIdleTimer c s =
      { chatTimers := (if s.chatTimers.any (fun e => e.1 = c) then
            replaceFirst (fun e => e.1 = c) (c, s.nextHandle) s.chatTimers
          else s.chatTimers ++ [(c, s.nextHandle)]),
        pending := (match timerFor c s with
          | some h => s.pending.filter (fun e => e.1 ≠ h)
          | none => s.pending) ++ [(s.nextHandle, c)],
        nextHandle := s.nextHandle + 1 } := by
  unfold resetIdleTimer
  cases timerFor c s <;> rfl

theorem timerFor_reset_self (c : Int) (s : TimerSys) :
    timerFor c (resetIdleTimer c s) = some s.nextHandle := by
  rw [resetIdleTimer_eq]
  unfold timerFor
  by_cases hany : s.chatTimers.any (fun e => e.1 = c) = true
  · simp only [if_pos hany]
    rw [find?_replaceFirst _ _ _ (by simp) hany]
  · simp only [if_neg hany]
    rw [List.find?_append]
    have hnone : s.chatTimers.find? (fun e => e.1 = c) = none := by
      rw [List.find?_eq_none]
      exact List.any_eq_false.mp (Bool.eq_false_iff.mpr hany)
    rw [hnone]
    simp [List.find?]

theorem timerFor_reset_other (c c2 : Int) (s : TimerSys) (hne : c2 ≠ c) :
    timerFor c2 (resetIdleTimer c s) = timerFor c2 s := by
  rw [resetIdleTimer_eq]
  unfold timerFor
  by_cases hany : s.chatTimers.any (fun e => e.1 = c) = true
  · simp only [if_pos hany]
    rw [find?_replaceFirst_other]
    · simp only [decide_eq_false_iff_not]
      exact fun h => hne h.symm
    · intro a ha
      simp only [decide_eq_true_eq] at ha
      simp only [decide_eq_false_iff_not, ha]
      exact fun h => hne h.symm
  · simp only [if_neg hany]
    rw [List.find?_append]
    have h2 : List.find? (fun e => e.1 = c2) [((c, s.nextHandle) : Int × Nat)] = none := by
      simp only [List.find?]
      have : (decide ((c : Int) = c2)) = false := by
        simp only [decide_eq_false_iff_not]
        exact fun h => hne h.symm
      rw [this]
    rw [h2]
    cases s.chatTimers.find? (fun e => e.1 = c2) <;> rfl

theorem reset_pending_clear (c : Int) (s : TimerSys) (hInv : TimerInv s) :
    List.filter (fun e => e.2 = c)
      (match timerFor c s with
        | some h => s.pending.filter (fun e => e.1 ≠ h)
        | none => s.pending) = [] := by
  cases ht : timerFor c s with
  | some h =>
    rw [List.filter_filter, List.filter_eq_nil_iff]
    intro e he
    simp only [Bool.and_eq_true, decide_eq_true_eq]
    rintro ⟨hec, hneh⟩
    have h1 := hInv.1 e he
    rw [hec, ht] at h1
    injection h1 with h1
    exact hneh h1.symm
  | none =>
    rw [List.filter_eq_nil_iff]
    intro e he
    simp only [decide_eq_true_eq]
    intro hec
    have h1 := hInv.1 e he
    rw [hec, ht] at h1
    exact Option.noConfusion h1

theorem reset_pending_other (c c2 : Int) (s : TimerSys) (hInv : TimerInv s) (hne : c2 ≠ c) :
    List.filter (fun e => e.2 = c2)
      (match timerFor c s with
        | some h => s.pending.filter (fun e => e.1 ≠ h)
        | none => s.pending) = List.filter (fun e => e.2 = c2) s.pending := by
  cases ht : timerFor c s with
  | none => rfl
  | some h =>
    rw [List.filter_filter]
    apply List.filter_congr
    intro e he
    by_cases hec : e.2 = c2
    · have h1 := hInv.1 e he
      rw [hec] at h1
      have hm1 := timerFor_mem h1
      have hm2 := timerFor_mem ht
      have hneq : e.1 ≠ h := by
        intro habs
        rw [habs] at hm1
        exact hne (hInv.2.2.1 (c2, h) hm1 (c, h) hm2 rfl)
      simp [hec, hneq]
    · simp [hec]

theorem reset_chatTimers_mem (c : Int) (s : TimerSys) :
    ∀ p ∈ (resetIdleTimer c s).chatTimers, p ∈ s.chatTimers ∨ p = (c, s.nextHandle) := by
  rw [resetIdleTimer_eq]
  intro p hp
  by_cases hany : s.chatTimers.any (fun e => e.1 = c) = true
  · rw [if_pos hany] at hp
    exact mem_replaceFirst _ _ _ p hp
  · rw [if_neg hany] at hp
    rcases List.mem_append.mp hp with hmem | hmem
    · left; exact hmem
    · right; exact List.mem_singleton.mp hmem

/-- C6 counterexample: an inbound message schedules the idle timer; when the
timer then fires and the spontaneous run completes, the chat is left with zero
live idle timers — the code does not reset the timer after a completed
spontaneous run, contrary to the claim. -/
theorem idleTimer_no_reset_after_fire :
    liveTimers 1 (resetIdleTimer 1 emptyTimers) = 1 ∧
    liveTimers 1 (idleTimerFire 1 (resetIdleTimer 1 emptyTimers)) = 0 := by
  decide

/-- C6 (amended): on every inbound message `resetIdleTimer` cancels the
chat's outstanding timer and schedules exactly one new one — exactly one live
timer for that chat afterwards, other chats untouched; a completed spontaneous
idle-wake run does not reschedule: it leaves zero live timers for the chat
until the next inbound message.  Both transitions preserve well-formedness, so
at most one live timer per chat ever exists and no double-fire is observable. -/
theorem idleTimer_reset_spec (s : TimerSys) (c : Int) (hInv : TimerInv s) :
    liveTimers c (resetIdleTimer c s) = 1 ∧
    (∀ c2, c2 ≠ c → liveTimers c2 (resetIdleTimer c s) = liveTimers c2 s) ∧
    TimerInv (resetIdleTimer c s) ∧
    liveTimers c (idleTimerFire c s) = 0 ∧
    TimerInv (idleTimerFire c s) := by
  refine ⟨?_, ?_, ?_, ?_, ?_⟩
  · unfold liveTimers
    rw [resetIdleTimer_eq]
    simp only
    rw [List.filter_append, reset_pending_clear c s hInv]
    simp
  · intro c2 hne
    unfold liveTimers
    rw [resetIdleTimer_eq]
    simp only
    rw [List.filter_append, reset_pending_other c c2 s hInv hne]
    have hsing : List.filter (fun e => e.2 = c2) [((s.nextHandle, c) : Nat × Int)] = [] := by
      simp only [List.filter]
      have : (decide ((c : Int) = c2)) = false := by
        simp only [decide_eq_false_iff_not]
        exact fun hcc => hne hcc.symm
      rw [this]
    rw [hsing, List.append_nil]
  · refine ⟨?_, ?_, ?_, ?_⟩
    · -- every pending entry carries its chat's recorded handle
      intro e he
      have hpend : (resetIdleTimer c s).pending =
          (match timerFor c s with
            | some h => s.pending.filter (fun e => e.1 ≠ h)
            | none => s.pending) ++ [(s.nextHandle, c)] := by
        rw [resetIdleTimer_eq]
      rw [hpend] at he
      rcases List.mem_append.mp he with hmem | hmem
      · have hold : e ∈ s.pending := by
          cases ht : timerFor c s with
          | some h => rw [ht] at hmem; exact List.mem_of_mem_filter hmem
          | none => rw [ht] at hmem; exact hmem
        have hnec : e.2 ≠ c := by
          intro habs
          have : e ∈ List.filter (fun e => e.2 = c)
              (match timerFor c s with
                | some h => s.pending.filter (fun e => e.1 ≠ h)
                | none => s.pending) := by
            rw [List.mem_filter]
            exact ⟨hmem, by simp [habs]⟩
          rw [reset_pending_clear c s hInv] at this
          exact List.not_mem_nil e this
        rw [timerFor_reset_other c e.2 s hnec]
        exact hInv.1 e hold
      · have : e = (s.nextHandle, c) := List.mem_singleton.mp hmem
        rw [this]
        exact timerFor_reset_self c s
    · -- recorded handles stay below the allocation counter
      intro p hp
      have hnext : (resetIdleTimer c s).nextHandle = s.nextHandle + 1 := by
        rw [resetIdleTimer_eq]
      rw [hnext]
      rcases reset_chatTimers_mem c s p hp with hmem | hmem
      · have := hInv.2.1 p hmem
        omega
      · rw [hmem]
        omega
    · -- a handle is recorded for at most one chat
      intro p hp q hq hpq
      rcases reset_chatTimers_mem c s p hp with hmp | hmp <;>
        rcases reset_chatTimers_mem c s q hq with hmq | hmq
      · exact hInv.2.2.1 p hmp q hmq hpq
      · have h1 := hInv.2.1 p hmp
        rw [hmq] at hpq
        simp only at hpq
        omega
      · have h1 := hInv.2.1 q hmq
        rw [hmp] at hpq
        simp only at hpq
        omega
      · rw [hmp, hmq]
    · -- pending stays duplicate-free
      have hpend : (resetIdleTimer c s).pending =
          (match timerFor c s with
            | some h => s.pending.filter (fun e => e.1 ≠ h)
            | none => s.pending) ++ [(s.nextHandle, c)] := by
        rw [resetIdleTimer_eq]
      rw [hpend, List.nodup_append]
      have hsub : ∀ e : Nat × Int, e ∈ (match timerFor c s with
          | some h => s.pending.filter (fun a => a.1 ≠ h)
          | none => s.pending : List (Nat × Int)) → e ∈ s.pending := by
        intro e hmem
        cases ht : timerFor c s with
        | some h => rw [ht] at hmem; exact List.mem_of_mem_filter hmem
        | none => rw [ht] at hmem; exact hmem
      refine ⟨?_, List.nodup_singleton _, ?_⟩
      · cases ht : timerFor c s with
        | some h => exact hInv.2.2.2.filter _
        | none => exact hInv.2.2.2
      · intro e hmem hmem2
        have he1 := pending_handle_lt hInv e (hsub e hmem)
        have : e = (s.nextHandle, c) := List.mem_singleton.mp hmem2
        rw [this] at he1
        simp only at he1
        omega
  · unfold liveTimers idleTimerFire
    cases ht : timerFor c s with
    | some h =>
      simp only
      have := reset_pending_clear c s hInv
      rw [ht] at this
      rw [this]
      rfl
    | none =>
      simp only
      have := reset_pending_clear c s hInv
      rw [ht] at this
      rw [this]
      rfl
  · unfold idleTimerFire
    cases ht : timerFor c s with
    | none => exact hInv
    | some h =>
      refine ⟨?_, hInv.2.1, hInv.2.2.1, hInv.2.2.2.filter _⟩
      intro e he
      have hold : e ∈ s.pending := List.mem_of_mem_filter he
      have h1 := hInv.1 e hold
      unfold timerFor at h1 ⊢
      exact h1

theorem idleTimer_reset_spec_witness :
    liveTimers 3 (resetIdleTimer 3 emptyTimers) = 1 ∧
    (∀ c2, c2 ≠ 3 → liveTimers c2 (resetIdleTimer 3 emptyTimers) = liveTimers c2 emptyTimers) ∧
    TimerInv (resetIdleTimer 3 emptyTimers) ∧
    liveTimers 3 (idleTimerFire 3 emptyTimers) = 0 ∧
    TimerInv (idleTimerFire 3 emptyTimers) :=
  idleTimer_reset_spec emptyTimers 3 (by
    refine ⟨?_, ?_, ?_, ?_⟩ <;> simp [emptyTimers, List.Nodup])

theorem settingsRowFor_chat_id (st : Store) (cid : Int) :
    (settingsRowFor st cid).chat_id = intToStr cid := by
  unfold settingsRowFor
  cases hf : st.chat_settings.find? (fun r => r.chat_id = intToStr cid) with
  | none => rfl
  | some s =>
    have := List.find?_some hf
    simpa using this

theorem settingsRowFor_save (st : Store) (cid : Int) (row : SettingsRow)
    (hrow : row.chat_id = intToStr cid) :
    settingsRowFor (saveSettings st row) cid = row := by
  unfold settingsRowFor saveSettings
  by_cases hany : st.chat_settings.any (fun r => r.chat_id = row.chat_id) = true
  · rw [if_pos hany]
    simp only
    rw [hrow] at hany
    have hfind : (replaceFirst (fun r => r.chat_id = intToStr cid) row st.chat_settings).find?
        (fun r => r.chat_id = intToStr cid) = some row := by
      apply find?_replaceFirst
      · simp [hrow]
      · exact hany
    rw [hrow]
    rw [hfind]
  · rw [if_neg hany]
    simp only
    have hanyf : st.chat_settings.any (fun r => r.chat_id = row.chat_id) = false :=
      Bool.eq_false_iff.mpr hany
    rw [hrow] at hanyf
    have hnone : st.chat_settings.find? (fun r => r.chat_id = intToStr cid) = none := by
      rw [List.find?_eq_none]
      exact List.any_eq_false.mp hanyf
    rw [List.find?_append, hnone]
    simp only [Option.none_or, List.find?]
    rw [show (decide (row.chat_id = intToStr cid)) = true by simp [hrow]]

/-- C8: `shouldReplyPassive` adds the increment to the chat's persisted
message counter and fires exactly when the incremented counter reaches the
threshold `100 / reply_chance`; on firing the persisted counter is reduced by
the threshold with the overflow retained (clamped at zero), and on not firing
the incremented counter is persisted unchanged.  (The code's threshold is
`100 / (reply_chance || 1)`, which equals `100 / reply_chance` whenever
`reply_chance` is positive, the regime this claim describes.) -/
theorem shouldReplyPassive_spec (st : Store) (cid : Int) (k : Nat)
    (hk : 0 < k) (hrc : 0 < (settingsRowFor st cid).reply_chance) :
    (((shouldReplyPassive st cid k).1 = true) ↔
      (100 / (((settingsRowFor st cid).reply_chance : Int) : Rat) ≤
        (settingsRowFor st cid).message_counter + k)) ∧
    ((settingsRowFor (shouldReplyPassive st cid k).2 cid).message_counter =
      (if (shouldReplyPassive st cid k).1 = true then
        max 0 ((settingsRowFor st cid).message_counter + k -
          100 / (((settingsRowFor st cid).reply_chance : Int) : Rat))
      else (settingsRowFor st cid).message_counter + k)) ∧
    ((settingsRowFor (shouldReplyPassive st cid k).2 cid).reply_chance =
      (settingsRowFor st cid).reply_chance) := by
  have hrcne : (settingsRowFor st cid).reply_chance ≠ 0 := by omega
  have hthr : (100 / (((if (settingsRowFor st cid).reply_chance = 0 then 1
      else (settingsRowFor st cid).reply_chance) : Int) : Rat)) =
      100 / (((settingsRowFor st cid).reply_chance : Int) : Rat) := by
    rw [if_neg hrcne]
  by_cases hfire : (100 / (((settingsRowFor st cid).reply_chance : Int) : Rat) ≤
      (settingsRowFor st cid).message_counter + k)
  · have hres : shouldReplyPassive st cid k =
        (true, saveSettings st
          { settingsRowFor st cid with
            message_counter := max 0 ((settingsRowFor st cid).message_counter + k -
              100 / (((settingsRowFor st cid).reply_chance : Int) : Rat)) }) := by
      unfold shouldReplyPassive
      simp only [hthr]
      rw [if_pos (by exact hfire)]
    have hsave := settingsRowFor_save st cid
      { settingsRowFor st cid with
        message_counter := max 0 ((settingsRowFor st cid).message_counter + k -
          100 / (((settingsRowFor st cid).reply_chance : Int) : Rat)) }
      (settingsRowFor_chat_id st cid)
    rw [hres]
    simp only [hsave]
    simp [hfire]
  · have hres : shouldReplyPassive st cid k =
        (false, saveSettings st
          { settingsRowFor st cid with
            message_counter := (settingsRowFor st cid).message_counter + k }) := by
      unfold shouldReplyPassive
      simp only [hthr]
      rw [if_neg (by exact hfire)]
    have hsave := settingsRowFor_save st cid
      { settingsRowFor st cid with
        message_counter := (settingsRowFor st cid).message_counter + k }
      (settingsRowFor_chat_id st cid)
    rw [hres]
    simp only [hsave]
    simp [hfire]

/-- Concrete store for the C8 witness: counter 9, reply chance 10%. -/
def stwC8 : Store :=
  { emptyStore with chat_settings := [⟨"5".data, 7/10, "neutral".data, 10, 9⟩] }

theorem shouldReplyPassive_spec_witness :
    (((shouldReplyPassive stwC8 5 1).1 = true) ↔
      (100 / (((settingsRowFor stwC8 5).reply_chance : Int) : Rat) ≤
        (settingsRowFor stwC8 5).message_counter + 1)) ∧
    ((settingsRowFor (shouldReplyPassive stwC8 5 1).2 5).message_counter =
      (if (shouldReplyPassive stwC8 5 1).1 = true then
        max 0 ((settingsRowFor stwC8 5).message_counter + 1 -
          100 / (((settingsRowFor stwC8 5).reply_chance : Int) : Rat))
      else (settingsRowFor stwC8 5).message_counter + 1)) ∧
    ((settingsRowFor (shouldReplyPassive stwC8 5 1).2 5).reply_chance =
      (settingsRowFor stwC8 5).reply_chance) :=
  shouldReplyPassive_spec stwC8 5 1 (by decide)
    (by rw [show (settingsRowFor stwC8 5).reply_chance = 10 from rfl]; decide)

/-- Crafted raw model output for the `<function(name){...}></function>`
encoding (format 1), with surrounding visible text. -/
def rawFormat1 : Str :=
  ("ok <function(search_web)>\x7b\"query\":\"cats\"\x7d</function>").data

/-- Crafted raw model output for the `<tools>...</tools>` wrapped encoding
(format 2). -/
def rawFormat2 : Str :=
  ("<tools>\x7b\"name\":\"search_web\",\"arguments\":\x7b\"query\":\"cats\"\x7d\x7d</tools>").data

/-- Crafted raw model output for the bare `name(key="value")` encoding
(format 3), using an allow-listed tool name. -/
def rawFormat3 : Str :=
  ("get_funny_image(keyword=\"cat\")").data

/-- C4: for each of the three textual tool-call encodings, a crafted raw model
output containing exactly one well-formed call to a known tool yields exactly
one extracted ToolInvocation with correctly parsed name and arguments, and the
cleaned visible text contains no residue of the call markup. -/
theorem toolcall_roundtrip_three_encodings :
    (extractTextToolCalls rawFormat1 =
      [{ id := mkCallId 0, type := "function".data,
         function := { name := some ("search_web".data),
                       arguments := some (("\x7b\"query\":\"cats\"\x7d").data) } }] ∧
      cleanContent rawFormat1 = "ok".data) ∧
    (extractTextToolCalls rawFormat2 =
      [{ id := mkCallId 0, type := "function".data,
         function := { name := some ("search_web".data),
                       arguments := some (("\x7b\"query\":\"cats\"\x7d").data) } }] ∧
      cleanContent rawFormat2 = []) ∧
    (extractTextToolCalls rawFormat3 =
      [{ id := mkCallId 0, type := "function".data,
         function := { name := some ("get_funny_image".data),
                       arguments := some (("\x7b\"keyword\":\"cat\"\x7d").data) } }] ∧
      cleanContent rawFormat3 = []) := by
  decide

/-- A structured tool call whose `arguments` string is not valid JSON. -/
def tcBadArgs : ToolCall :=
  { id := "call_y".data, type := "function".data,
    function := { name := some ("search_web".data), arguments := some [obrace] } }

/-- Environment whose provider always asks for the malformed call and whose
backends throw, as the real DuckDuckGo/Giphy backends can. -/
def cexEnvC2 : Env :=
  { provider := fun _ => some { content := none, toolCalls := [tcBadArgs] },
    searchWeb := fun _ => .error ("Search failed with status 500".data),
    getFunnyImage := fun _ => .error ("GIPHY_API_KEY is not set".data),
    extractUrlContent := fun _ => .error ("fetch failed".data) }

/-- A small conversation buffer. -/
def cexBufC2 : Buf :=
  { msgs := [userMsg ("system".data) ("s".data), userMsg ("user".data) ("hi".data)],
    photoToSend := none }

/-- C2 counterexample: a tool invocation whose arguments fail `JSON.parse`
makes the dispatch loop raise an uncaught exception — no descriptive
tool-result message is appended (the buffer is unchanged) and the orchestrator
run aborts with `null` after a single provider call instead of continuing. -/
theorem dispatch_exception_counterexample :
    (processToolCalls cexEnvC2 7 42 none [tcBadArgs] cexBufC2 emptyStore).2.2 =
      some ("SyntaxError: invalid JSON in tool call arguments".data) ∧
    (processToolCalls cexEnvC2 7 42 none [tcBadArgs] cexBufC2 emptyStore).1 = cexBufC2 ∧
    generateResponse cexEnvC2 7 42 none false cexBufC2 emptyStore 0 = (none, emptyStore, 1) := by
  decide

/-- C2 (amended): only the dispatcher's explicitly checked failures (unknown
tool name, reminder below the floor or with missing parameters, non-numeric
user ids) are converted into descriptive result strings; an argument-JSON
parse failure or a throwing tool backend raises an exception that no per-call
handler catches — the whole orchestrator run aborts through the outer catch
and returns null (no exception escapes `generateResponse`, but the remaining
tool calls are skipped and the run does not continue). -/
theorem dispatch_exception_aborts_run
    (env : Env) (userId chatId : Int) (onReminder : Option ReminderCb)
    (background : Bool) (buf : Buf) (st : Store) (depth : Nat)
    (reply : ProviderReply) (buf2 : Buf) (st2 : Store) (c2 : Nat)
    (buf3 : Buf) (st3 : Store) (e : Str)
    (hd : depth ≤ 5)
    (hc : compactionStage env chatId depth (stealthAdjust background depth buf) st = (buf2, st2, c2))
    (hp : env.provider buf2.msgs = some reply)
    (hproc : processToolCalls env userId chatId onReminder (mergedToolCalls reply)
        { buf2 with msgs := buf2.msgs ++ [assistantMsgOf reply] } st2 = (buf3, st3, some e)) :
    generateResponse env userId chatId onReminder background buf st depth = (none, st3, c2 + 1) := by
  have hne : ¬ (mergedToolCalls reply).isEmpty = true := by
    intro h
    rw [List.isEmpty_iff] at h
    rw [h] at hproc
    simp [processToolCalls] at hproc
  unfold generateResponse
  rw [generateResponseAux]
  rw [if_neg (by omega : ¬ depth > 5)]
  simp only [hc]
  rw [hp]
  simp only [hne, if_neg]
  rw [hproc]
  simp

/-- Buffer for the C2 witness. -/
def wBufC2 : Buf := { msgs := [userMsg ("system".data) ("w".data)], photoToSend := none }

theorem dispatch_exception_aborts_run_witness :
    generateResponse cexEnvC2 8 43 none false wBufC2 emptyStore 0 = (none, emptyStore, 0 + 1) :=
  dispatch_exception_aborts_run cexEnvC2 8 43 none false wBufC2 emptyStore 0
    { content := none, toolCalls := [tcBadArgs] } wBufC2 emptyStore 0
    { msgs := wBufC2.msgs ++ [assistantMsgOf { content := none, toolCalls := [tcBadArgs] }],
      photoToSend := none }
    emptyStore ("SyntaxError: invalid JSON in tool call arguments".data)
    (by decide) (by decide) (by decide) (by decide)

theorem escChar_a : escChar 'a' = ['a'] := by decide

theorem jsonEscape_replicate_a (n : Nat) :
    jsonEscape (List.replicate n 'a') = List.replicate n 'a' := by
  induction n with
  | zero => rfl
  | succ k ih =>
    rw [List.replicate_succ]
    show escChar 'a' ++ jsonEscape (List.replicate k 'a') = _
    rw [escChar_a, ih]
    rfl

theorem len_stringifyMsg_userMsg (r c : Str) :
    (stringifyMsg (userMsg r c)).length = 24 + (jsonEscape r).length + (jsonEscape c).length := by
  have hshape : stringifyMsg (userMsg r c) =
      obrace :: ((jstrLit ("role".data) ++ ':' :: jstrLit r) ++
        ',' :: (jstrLit ("content".data) ++ ':' :: jstrLit c)) ++ [cbrace] := rfl
  rw [hshape]
  have h1 : (jsonEscape ("role".data)).length = 4 := by decide
  have h2 : (jsonEscape ("content".data)).length = 7 := by decide
  simp [jstrLit, List.length_append, h1, h2]
  omega

theorem stringifyList_singleton (m : Msg) :
    stringifyList [m] = '[' :: stringifyMsg m ++ [']'] := rfl

/-- A system message whose serialized size alone exceeds the 40000 ceiling. -/
def bigSysMsg : Msg := userMsg ("system".data) (List.replicate 41000 'a')

theorem len_bigSysMsg : (stringifyMsg bigSysMsg).length = 41030 := by
  unfold bigSysMsg
  rw [len_stringifyMsg_userMsg]
  have h1 : (jsonEscape ("system".data)).length = 6 := by decide
  rw [h1, jsonEscape_replicate_a]
  rw [List.length_replicate]

theorem len_stringifyList_one (m : Msg) :
    (stringifyList [m]).length = (stringifyMsg m).length + 2 := by
  rw [stringifyList_singleton]
  simp only [List.length_cons, List.length_append, List.length_singleton, List.length_nil]

theorem len_stringifyList_bigSys : (stringifyList [bigSysMsg]).length = 41032 := by
  rw [len_stringifyList_one, len_bigSysMsg]

/-- C3 counterexample: a conversation whose leading system message alone
serializes over the 40000-character ceiling.  Truncation keeps the system
message (as it must) and therefore returns a buffer that is still over the
ceiling, contradicting "yields a list whose serialized size is under the
ceiling". -/
theorem truncation_over_ceiling_counterexample :
    truncateIfNeeded { msgs := [bigSysMsg], photoToSend := none } =
      { msgs := [bigSysMsg], photoToSend := none } ∧
    40000 < (stringifyList (truncateIfNeeded
      { msgs := [bigSysMsg], photoToSend := none }).msgs).length := by
  have htr : truncateIfNeeded { msgs := [bigSysMsg], photoToSend := none } =
      { msgs := [bigSysMsg], photoToSend := none } := by
    unfold truncateIfNeeded
    dsimp only
    rw [len_stringifyList_bigSys]
    rw [if_pos (by norm_num)]
    rfl
  refine ⟨htr, ?_⟩
  rw [htr]
  dsimp only
  rw [len_stringifyList_bigSys]
  norm_num

theorem keepNewest_take : ∀ (l : List Msg) (c : Nat), ∃ k, keepNewest l c = l.take k := by
  intro l
  induction l with
  | nil => intro c; exact ⟨0, rfl⟩
  | cons m rest ih =>
    intro c
    unfold keepNewest
    by_cases hfit : c + (stringifyMsg m).length > 40000
    · rw [if_pos hfit]
      exact ⟨0, rfl⟩
    · rw [if_neg hfit]
      rcases ih (c + (stringifyMsg m).length) with ⟨k, hk⟩
      exact ⟨k + 1, by rw [hk]; rfl⟩

theorem keepNewest_sum : ∀ (l : List Msg) (c : Nat), c ≤ 40000 →
    c + ((keepNewest l c).map (fun m => (stringifyMsg m).length)).sum ≤ 40000 := by
  intro l
  induction l with
  | nil => intro c hc; simpa using hc
  | cons m rest ih =>
    intro c hc
    unfold keepNewest
    by_cases hfit : c + (stringifyMsg m).length > 40000
    · rw [if_pos hfit]
      simpa using hc
    · rw [if_neg hfit]
      have := ih (c + (stringifyMsg m).length) (by omega)
      simp only [List.map_cons, List.sum_cons]
      omega

/-- C3 (amended): for a buffer whose first message is the system message and
whose serialized size exceeds the 40000 ceiling, truncation retains the system
message, keeps a suffix of the newest non-system messages, and bounds the SUM
of the individual serialized message sizes by the ceiling provided the system
message alone fits; the full serialized array may exceed the ceiling by the
list brackets and separators, and when the system message alone is over the
ceiling the result remains over the ceiling. -/
theorem truncation_amended (sys : Msg) (rest : List Msg) (ph : Option Photo)
    (hrole : sys.role = "system".data)
    (hover : 40000 < (stringifyList (sys :: rest)).length) :
    ∃ kept, truncateIfNeeded { msgs := sys :: rest, photoToSend := ph } =
        { msgs := sys :: kept, photoToSend := none } ∧
      (∃ n, kept = rest.drop n) ∧
      ((stringifyMsg sys).length ≤ 40000 →
        (stringifyMsg sys).length +
          ((sys :: kept).map (fun m => (stringifyMsg m).length)).sum ≤
          40000 + (stringifyMsg sys).length) := by
  refine ⟨(keepNewest rest.reverse ((stringifyMsg sys).length)).reverse, ?_, ?_, ?_⟩
  · unfold truncateIfNeeded
    simp only
    rw [if_pos (by simpa using hover)]
    simp only [hrole]
    rfl
  · rcases keepNewest_take rest.reverse ((stringifyMsg sys).length) with ⟨k, hk⟩
    refine ⟨rest.length - k, ?_⟩
    rw [hk, List.take_reverse, List.reverse_reverse]
  · intro hsys
    have hsum := keepNewest_sum rest.reverse ((stringifyMsg sys).length) hsys
    simp only [List.map_cons, List.sum_cons]
    rw [List.map_reverse, List.sum_reverse]
    omega

theorem len_stringifyList_three (m1 m2 m3 : Msg) :
    (stringifyList [m1, m2, m3]).length =
      (stringifyMsg m1).length + (stringifyMsg m2).length + (stringifyMsg m3).length + 4 := by
  show ('[' :: (stringifyMsg m1 ++ ',' :: (stringifyMsg m2 ++ ',' :: stringifyMsg m3)) ++ [']']).length = _
  simp only [List.length_cons, List.length_append, List.length_singleton, List.length_nil]
  omega

/-- Small system message for the C3 witness. -/
def wSysC3 : Msg := userMsg ("system".data) ("s".data)

/-- Oversized non-system message for the C3 witness. -/
def wBigC3 : Msg := userMsg ("user".data) (List.replicate 41000 'a')

/-- Tiny newest message for the C3 witness. -/
def wTinyC3 : Msg := userMsg ("user".data) ("t".data)

theorem len_wBigC3 : (stringifyMsg wBigC3).length = 41028 := by
  unfold wBigC3
  rw [len_stringifyMsg_userMsg]
  have h4 : (jsonEscape ("user".data)).length = 4 := by decide
  rw [h4, jsonEscape_replicate_a, List.length_replicate]

theorem hoverC3 : 40000 < (stringifyList [wSysC3, wBigC3, wTinyC3]).length := by
  rw [len_stringifyList_three]
  have h1 : (stringifyMsg wSysC3).length = 31 := by
    unfold wSysC3
    rw [len_stringifyMsg_userMsg]
    decide
  have h3 : (stringifyMsg wTinyC3).length = 29 := by
    unfold wTinyC3
    rw [len_stringifyMsg_userMsg]
    decide
  rw [h1, len_wBigC3, h3]
  norm_num

theorem truncation_amended_witness :
    ∃ kept, truncateIfNeeded { msgs := wSysC3 :: [wBigC3, wTinyC3], photoToSend := none } =
        { msgs := wSysC3 :: kept, photoToSend := none } ∧
      (∃ n, kept = [wBigC3, wTinyC3].drop n) ∧
      ((stringifyMsg wSysC3).length ≤ 40000 →
        (stringifyMsg wSysC3).length +
          ((wSysC3 :: kept).map (fun m => (stringifyMsg m).length)).sum ≤
          40000 + (stringifyMsg wSysC3).length) :=
  truncation_amended wSysC3 [wBigC3, wTinyC3] none rfl hoverC3

theorem extractTextToolCalls_nil : extractTextToolCalls [] = [] := rfl

theorem mergedToolCalls_noContent (tcs : List ToolCall) :
    mergedToolCalls { content := none, toolCalls := tcs } = tcs := by
  unfold mergedToolCalls contentRaw
  rw [extractTextToolCalls_nil]
  simp

theorem processToolCalls_ok (env : Env) (uid cid : Int) (onRem : Option ReminderCb) :
    ∀ (tcs : List ToolCall) (buf : Buf) (st : Store),
      (∀ tc ∈ tcs, ∀ b s, ((dispatchOne env uid cid onRem tc b s).2.2).isOk = true) →
      (processToolCalls env uid cid onRem tcs buf st).2.2 = none := by
  intro tcs
  induction tcs with
  | nil => intro buf st _; rfl
  | cons tc rest ih =>
    intro buf st h
    unfold processToolCalls
    by_cases hty : tc.type = "function".data
    · rw [if_neg (not_not_intro hty)]
      rcases hd : dispatchOne env uid cid onRem tc buf st with ⟨b2, s2, out⟩
      cases out with
      | error e =>
        have := h tc (List.mem_cons_self tc rest) buf st
        rw [hd] at this
        simp [Except.isOk, Except.toBool] at this
      | ok r =>
        exact ih _ _ (fun tc2 m2 b s => h tc2 (List.mem_cons_of_mem tc m2) b s)
    · rw [if_pos hty]
      exact ih _ _ (fun tc2 m2 b s => h tc2 (List.mem_cons_of_mem tc m2) b s)

theorem compactionStage_deep (env : Env) (cid : Int) (d : Nat) (hd : 1 ≤ d)
    (buf : Buf) (st : Store) :
    compactionStage env cid d buf st = (truncateIfNeeded buf, st, 0) := by
  unfold compactionStage
  rw [decide_eq_false (by omega : ¬ d = 0)]
  simp only [Bool.and_false]
  rfl

theorem genAux_ceiling (env : Env) (uid cid : Int) (onRem : Option ReminderCb)
    (hprov : ∀ ms, ∃ tcs, env.provider ms = some { content := none, toolCalls := tcs } ∧ tcs ≠ [])
    (hdisp : ∀ ms tcs, env.provider ms = some { content := none, toolCalls := tcs } →
      ∀ tc ∈ tcs, ∀ b s, ((dispatchOne env uid cid onRem tc b s).2.2).isOk = true) :
    ∀ (f : Nat), ∀ (d : Nat), d + f = 6 → 1 ≤ d → ∀ (buf : Buf) (st : Store), ∃ st2,
      generateResponseAux f env uid cid onRem false buf st d = (some fallbackResponse, st2, f) := by
  intro f
  induction f with
  | zero =>
    intro d hdf _ buf st
    refine ⟨st, ?_⟩
    rw [generateResponseAux]
    rw [if_pos (by omega : d > 5)]
  | succ f ih =>
    intro d hdf hd1 buf st
    rw [generateResponseAux]
    rw [if_neg (by omega : ¬ d > 5)]
    have hst : stealthAdjust false d buf = buf := by
      unfold stealthAdjust
      simp
    rcases hprov (truncateIfNeeded buf).msgs with ⟨tcs, hpr, hne⟩
    have hemp : tcs.isEmpty = false := by
      cases tcs with
      | nil => exact absurd rfl hne
      | cons a t => rfl
    simp only [hst, compactionStage_deep env cid d hd1 buf st, hpr,
      mergedToolCalls_noContent, hemp, Bool.false_eq_true, if_false]
    rcases hpres : processToolCalls env uid cid onRem tcs
        { msgs := (truncateIfNeeded buf).msgs ++
            [assistantMsgOf { content := none, toolCalls := tcs }],
          photoToSend := (truncateIfNeeded buf).photoToSend } st with ⟨b3, s3, exn⟩
    have hoknone : exn = none := by
      have := processToolCalls_ok env uid cid onRem tcs
        { msgs := (truncateIfNeeded buf).msgs ++
            [assistantMsgOf { content := none, toolCalls := tcs }],
          photoToSend := (truncateIfNeeded buf).photoToSend } st
        (hdisp _ tcs hpr)
      rw [hpres] at this
      exact this
    subst hoknone
    rcases ih (d + 1) (by omega) (by omega) b3 s3 with ⟨st2, hrec⟩
    refine ⟨st2, ?_⟩
    simp only [hpres, hrec]
    simp [Nat.add_comm]

theorem compactionStage_small (env : Env) (cid : Int) (buf : Buf) (st : Store)
    (hsz : ¬ (stringifyList buf.msgs).length > 60000) :
    compactionStage env cid 0 buf st = (truncateIfNeeded buf, st, 0) := by
  unfold compactionStage
  simp only [decide_eq_false hsz, Bool.false_and]
  rfl

theorem summarizeHistory_noContent (env : Env) (cid : Int) (msgs : List Msg) (st : Store)
    (tcs : List ToolCall)
    (hsz : ¬ (stringifyList msgs).length < 15000)
    (hpr : env.provider (msgs.dropLast ++ [userMsg ("system".data) summaryPromptText]) =
      some { content := none, toolCalls := tcs }) :
    summarizeHistory env cid msgs st = (false, st, 1) := by
  unfold summarizeHistory
  simp only [if_neg hsz, hpr]

theorem compactionStage_big (env : Env) (cid : Int) (buf : Buf) (st : Store)
    (tcs : List ToolCall)
    (hsz : (stringifyList buf.msgs).length > 60000)
    (hpr : env.provider (buf.msgs.dropLast ++ [userMsg ("system".data) summaryPromptText]) =
      some { content := none, toolCalls := tcs }) :
    compactionStage env cid 0 buf st = (truncateIfNeeded buf, st, 1) := by
  unfold compactionStage
  simp only [decide_eq_true hsz, Bool.true_and,
    summarizeHistory_noContent env cid buf.msgs st tcs (by omega) hpr]
  rfl

theorem genAux6_depth0 (env : Env) (uid cid : Int) (onRem : Option ReminderCb)
    (hprov : ∀ ms, ∃ tcs, env.provider ms = some { content := none, toolCalls := tcs } ∧ tcs ≠ [])
    (hdisp : ∀ ms tcs, env.provider ms = some { content := none, toolCalls := tcs } →
      ∀ tc ∈ tcs, ∀ b s, ((dispatchOne env uid cid onRem tc b s).2.2).isOk = true)
    (buf : Buf) (st : Store) (buf2 : Buf) (st2 : Store) (c2 : Nat)
    (hc : compactionStage env cid 0 buf st = (buf2, st2, c2)) :
    ∃ st3, generateResponseAux 6 env uid cid onRem false buf st 0 =
      (some fallbackResponse, st3, c2 + 1 + 5) := by
  rw [generateResponseAux]
  rw [if_neg (by omega : ¬ 0 > 5)]
  have hst : stealthAdjust false 0 buf = buf := by
    unfold stealthAdjust
    simp
  rcases hprov buf2.msgs with ⟨tcs, hpr, hne⟩
  have hemp : tcs.isEmpty = false := by
    cases tcs with
    | nil => exact absurd rfl hne
    | cons a t => rfl
  simp only [hst, hc, hpr, mergedToolCalls_noContent, hemp, Bool.false_eq_true, if_false]
  rcases hpres : processToolCalls env uid cid onRem tcs
      { msgs := buf2.msgs ++ [assistantMsgOf { content := none, toolCalls := tcs }],
        photoToSend := buf2.photoToSend } st2 with ⟨b3, s3, exn⟩
  have hoknone : exn = none := by
    have := processToolCalls_ok env uid cid onRem tcs
      { msgs := buf2.msgs ++ [assistantMsgOf { content := none, toolCalls := tcs }],
        photoToSend := buf2.photoToSend } st2
      (hdisp _ tcs hpr)
    rw [hpres] at this
    exact this
  subst hoknone
  rcases genAux_ceiling env uid cid onRem hprov hdisp 5 1 (by omega) (by omega) b3 s3 with ⟨st3, hrec⟩
  refine ⟨st3, ?_⟩
  simp only [hpres, hrec]

/-- C1 (amended): driven by a provider that always returns at least one tool
call (and no structured content), `generateResponse` terminates: the run
returns the fixed fallback response, the provider is called at most 7 times
in total (the depth ceiling of 5 allows 6 generation calls, and the depth-0
summarization step above 60000 serialized characters may add one more), and
exactly 6 times whenever the initial buffer serializes to at most 60000
characters. -/
theorem recursion_terminates_at_ceiling (env : Env) (uid cid : Int) (onRem : Option ReminderCb)
    (hprov : ∀ ms, ∃ tcs, env.provider ms = some { content := none, toolCalls := tcs } ∧ tcs ≠ [])
    (hdisp : ∀ ms tcs, env.provider ms = some { content := none, toolCalls := tcs } →
      ∀ tc ∈ tcs, ∀ b s, ((dispatchOne env uid cid onRem tc b s).2.2).isOk = true)
    (buf : Buf) (st : Store) :
    ∃ st2 n, generateResponse env uid cid onRem false buf st 0 = (some fallbackResponse, st2, n) ∧
      n ≤ 7 ∧ ((stringifyList buf.msgs).length ≤ 60000 → n = 6) := by
  unfold generateResponse
  by_cases hbig : (stringifyList buf.msgs).length > 60000
  · rcases hprov (buf.msgs.dropLast ++ [userMsg ("system".data) summaryPromptText]) with ⟨tcs, hpr, _⟩
    rcases genAux6_depth0 env uid cid onRem hprov hdisp buf st (truncateIfNeeded buf) st 1
      (compactionStage_big env cid buf st tcs hbig hpr) with ⟨st3, hres⟩
    exact ⟨st3, 7, hres, by omega, fun hle => absurd hbig (by omega)⟩
  · rcases genAux6_depth0 env uid cid onRem hprov hdisp buf st (truncateIfNeeded buf) st 0
      (compactionStage_small env cid buf st hbig) with ⟨st3, hres⟩
    exact ⟨st3, 6, hres, by omega, fun _ => rfl⟩

theorem joinComma_length_cons : ∀ (l : List Str) (s : Str),
    (joinComma (s :: l)).length = s.length + (l.map List.length).sum + l.length := by
  intro l
  induction l with
  | nil => intro s; simp [joinComma]
  | cons t l2 ih =>
    intro s
    show (s ++ ',' :: joinComma (t :: l2)).length = _
    rw [List.length_append]
    simp only [List.length_cons]
    rw [ih t]
    simp only [List.map_cons, List.sum_cons]
    omega

theorem stringifyList_length_cons (m : Msg) (ms : List Msg) :
    (stringifyList (m :: ms)).length =
      (stringifyMsg m).length + ((ms.map (fun x => (stringifyMsg x).length)).sum) + ms.length + 2 := by
  unfold stringifyList
  simp only [List.map_cons, List.length_cons, List.length_append]
  rw [joinComma_length_cons]
  simp only [List.map_map, List.length_map, List.length_singleton, List.length_nil]
  have hco : (ms.map (List.length ∘ stringifyMsg)).sum = (ms.map (fun x => (stringifyMsg x).length)).sum := rfl
  rw [hco]

/-- An invocation of an unknown tool with well-formed empty arguments. -/
def tcUnknownC1 : ToolCall :=
  { id := "c".data, type := "function".data,
    function := { name := some ("foo".data), arguments := some ("\x7b\x7d".data) } }

/-- Mock environment whose provider always returns the single unknown-tool
call and no visible text. -/
def cexEnvC1 : Env :=
  { provider := fun _ => some { content := none, toolCalls := [tcUnknownC1] },
    searchWeb := fun _ => .ok ("r".data),
    getFunnyImage := fun _ => .ok ("g".data),
    extractUrlContent := fun _ => .ok ("u".data) }

/-- The system message of the oversized C1 buffer. -/
def sysMsgC1 : Msg := userMsg ("system".data) ("s".data)

/-- The oversized middle message of the C1 buffer. -/
def bigUserC1 : Msg := userMsg ("user".data) (List.replicate 61000 'a')

/-- An empty-content filler message. -/
def tinyMsgC1 : Msg := userMsg ("u".data) []

/-- A conversation buffer over the 60000-character summarization threshold
whose newest ten messages are tiny. -/
def cexBufC1 : Buf :=
  { msgs := sysMsgC1 :: bigUserC1 :: List.replicate 10 tinyMsgC1, photoToSend := none }

theorem len_sysMsgC1 : (stringifyMsg sysMsgC1).length = 31 := by
  unfold sysMsgC1
  rw [len_stringifyMsg_userMsg]
  decide

theorem len_bigUserC1 : (stringifyMsg bigUserC1).length = 61028 := by
  unfold bigUserC1
  rw [len_stringifyMsg_userMsg]
  have h4 : (jsonEscape ("user".data)).length = 4 := by decide
  rw [h4, jsonEscape_replicate_a, List.length_replicate]

theorem len_tinyMsgC1 : (stringifyMsg tinyMsgC1).length = 25 := by
  unfold tinyMsgC1
  rw [len_stringifyMsg_userMsg]
  decide

theorem tinySum10 : ((List.replicate 10 tinyMsgC1).map (fun x => (stringifyMsg x).length)).sum = 250 := by
  rw [List.map_replicate, len_tinyMsgC1, List.sum_replicate, smul_eq_mul]

theorem len_cexMsgsC1 : (stringifyList cexBufC1.msgs).length = 61322 := by
  show (stringifyList (sysMsgC1 :: bigUserC1 :: List.replicate 10 tinyMsgC1)).length = 61322
  rw [stringifyList_length_cons]
  rw [List.map_cons, List.sum_cons, tinySum10, len_sysMsgC1, len_bigUserC1,
    List.length_cons, List.length_replicate]


theorem hprovC1 : ∀ ms : List Msg, ∃ tcs,
    cexEnvC1.provider ms = some { content := none, toolCalls := tcs } ∧ tcs ≠ [] :=
  fun _ => ⟨[tcUnknownC1], rfl, by simp⟩

theorem dispatchOne_unknownC1 : ∀ (b : Buf) (s : Store),
    ((dispatchOne cexEnvC1 7 42 none tcUnknownC1 b s).2.2).isOk = true :=
  fun _ _ => rfl

theorem hdispC1 : ∀ ms tcs,
    cexEnvC1.provider ms = some { content := none, toolCalls := tcs } →
    ∀ tc ∈ tcs, ∀ b s, ((dispatchOne cexEnvC1 7 42 none tc b s).2.2).isOk = true := by
  intro ms tcs hpr tc htc b s
  have h2 : [tcUnknownC1] = tcs := congrArg ProviderReply.toolCalls (Option.some.inj hpr)
  rw [← h2] at htc
  rw [List.mem_singleton.mp htc]
  exact dispatchOne_unknownC1 b s

/-- C1 counterexample: on a buffer that serializes to 61322 characters, a
provider that always returns one tool call is called 7 times in a single
logical reply — the depth-0 summarization step at ai.ts lines 240–256 makes
its own provider call before the 6 generation calls, exceeding the claimed
bound of depth-ceiling+1 = 6 provider calls. -/
theorem extra_summarization_call_counterexample :
    ∃ st2, generateResponse cexEnvC1 7 42 none false cexBufC1 emptyStore 0 =
      (some fallbackResponse, st2, 7) ∧ 7 > 5 + 1 := by
  have hbig : (stringifyList cexBufC1.msgs).length > 60000 := by
    rw [len_cexMsgsC1]
    decide
  have hpr : cexEnvC1.provider (cexBufC1.msgs.dropLast ++
      [userMsg ("system".data) summaryPromptText]) =
      some { content := none, toolCalls := [tcUnknownC1] } := rfl
  rcases genAux6_depth0 cexEnvC1 7 42 none hprovC1 hdispC1 cexBufC1 emptyStore
    (truncateIfNeeded cexBufC1) emptyStore 1
    (compactionStage_big cexEnvC1 42 cexBufC1 emptyStore [tcUnknownC1] hbig hpr) with ⟨st3, hres⟩
  refine ⟨st3, ?_, by omega⟩
  have heq : generateResponse cexEnvC1 7 42 none false cexBufC1 emptyStore 0 =
      generateResponseAux 6 cexEnvC1 7 42 none false cexBufC1 emptyStore 0 := rfl
  rw [heq, hres]

theorem recursion_terminates_at_ceiling_witness :
    ∃ st2 n, generateResponse cexEnvC1 7 42 none false
        { msgs := [], photoToSend := none } emptyStore 0 = (some fallbackResponse, st2, n) ∧
      n ≤ 7 ∧
      ((stringifyList ({ msgs := [], photoToSend := none } : Buf).msgs).length ≤ 60000 → n = 6) :=
  recursion_terminates_at_ceiling cexEnvC1 7 42 none hprovC1 hdispC1
    { msgs := [], photoToSend := none } emptyStore
